import Mathlib

/-!
Verification of the termscp remote-filesystem access layer (shell-copy/SCP
backend in `src/filetransfer/scp_transfer.rs` and native-SFTP backend in
`src/filetransfer/sftp_transfer.rs`) against its natural-language
specification.

The transport (libssh2 sessions, channels, the local filesystem, the remote
server's responses) is modelled as an environment record of oracle functions;
everything the Rust code computes on top of those oracles is translated
faithfully.  Rust `PathBuf` values are modelled as plain strings (a `PathBuf`
is a string internally on unix), with `push` / `file_name` / `parent` /
`extension` re-implemented following the unix semantics of `std::path`.
Recursive operations whose recursion passes through server responses
(symlink resolution, recursive delete) take a fuel parameter; exhausting the
fuel yields the dedicated outcome `Outcome.spin`, marking a computation that
in the Rust original would still be running (possible non-termination).
-/

namespace Termscp

/-! ## Paths (unix semantics of `std::path::Path` on plain strings) -/

/-- Splits a character list on a separator character, keeping empty pieces
(`splitOnC sep "a//b" = ["a", "", "b"]`-shaped for `sep = '/'`). -/
def splitOnC (sep : Char) : List Char → List (List Char)
  | [] => [[]]
  | c :: rest =>
    if c = sep then [] :: splitOnC sep rest
    else
      match splitOnC sep rest with
      | [] => [[c]]
      | s :: ss => (c :: s) :: ss

/-- Splits a character list on `/`. -/
def splitChar (cs : List Char) : List (List Char) := splitOnC '/' cs

/-- The normal components of a path: pieces between `/` with empty pieces and
lone `.` dropped, mirroring how `std::path::Components` normalizes a unix
path (`..` is kept, as `ParentDir` is a real component). -/
def segsOf (cs : List Char) : List (List Char) :=
  (splitChar cs).filter (fun s => s ≠ [] ∧ s ≠ ['.'])

/-- Whether the string starts with `/` (unix `Path::is_absolute`). -/
def startsSlash (s : String) : Bool := s.toList.head? = some '/'

/-- Whether the string ends with `/`. -/
def endsSlash (s : String) : Bool := s.toList.getLast? = some '/'

/-- Unix `Path::file_name`: the last normal component; `none` for the root,
the empty path, or a path ending in `..`. -/
def fileName (s : String) : Option String :=
  match (segsOf s.toList).getLast? with
  | none => none
  | some seg => if seg = ['.', '.'] then none else some (String.mk seg)

/-- Unix `PathBuf::push`: an absolute argument replaces the path, otherwise
the argument is appended after a `/` separator (none added if the base is
empty or already ends in `/`). -/
def pushPath (base p : String) : String :=
  if startsSlash p then p
  else if base = "" then p
  else if endsSlash base then base ++ p
  else base ++ "/" ++ p

/-- Unix `Path::parent`: the path minus its last component, `none` for the
root and the empty path. -/
def parentPath (s : String) : Option String :=
  match segsOf s.toList with
  | [] => none
  | cs =>
    some ((if startsSlash s then "/" else "")
      ++ String.intercalate "/" ((cs.dropLast).map String.mk))

/-- The extension part of a single file name: the characters after the last
`.`, unless there is no `.` or the `.` is the leading character
(`std::path` file-stem/extension split). -/
def extSplit (n : List Char) : Option String :=
  let afterRev := n.reverse.takeWhile (fun c => c ≠ '.')
  if afterRev.length = n.length then none
  else if n.length - afterRev.length - 1 = 0 then none
  else some (String.mk afterRev.reverse)

/-- Unix `Path::extension`. -/
def extension (p : String) : Option String :=
  (fileName p).bind (fun n => extSplit n.toList)

/-- Whether a string contains a `/` (used to state when a parsed file name is
a single path component). -/
def containsSlash (s : String) : Bool := s.toList.contains '/'

/-- Whitespace as Rust `char::is_whitespace` sees it (ASCII part). -/
def isWsC (c : Char) : Bool :=
  c = ' ' || c = '\t' || c = '\n' || c = '\r' || c = '\x0b' || c = '\x0c'

/-- Rust `str::trim`: the string with leading and trailing whitespace
removed. -/
def trimS (s : String) : String :=
  String.mk (((s.toList.dropWhile isWsC).reverse.dropWhile isWsC).reverse)

/-- Rust `str::starts_with(c)` for a single character. -/
def startsWithC (s : String) (c : Char) : Bool := s.toList.head? = some c

/-- Rust `&s[1..]` on a string whose first character is one byte wide. -/
def dropOne (s : String) : String := String.mk (s.toList.drop 1)

/-! ## Error kinds and operation outcomes -/

/-- Modelled from the spec: `FileTransferErrorType` (section 7 of the spec;
the enum itself lives in `src/filetransfer/mod.rs`, which is not part of the
provided sources, but every variant appears at construction sites inside the
two backend files).  The optional human-readable detail string is not
modelled: every claim is about the kind. -/
inductive FTErr where
  | BadAddress
  | ConnectionError
  | AuthenticationFailed
  | UninitializedSession
  | ProtocolError
  | NoSuchFileOrDirectory
  | FileCreateDenied
  | PexError
  | DirStatFailed
  | UnsupportedFeature
deriving DecidableEq, Repr

/-- The outcome of a backend operation.  `panic` models a Rust panic (a
failed `unwrap`), `spin` models a computation that never returns (fuel
exhausted on recursion that passes through server responses). -/
inductive Outcome (α : Type) where
  | ok (a : α)
  | err (e : FTErr)
  | panic
  | spin
deriving DecidableEq, Repr

/-! ## FsEntry (crate::fs) -/

/-- Modelled from the spec: the fields of `FsFile`/`FsDirectory` (spec
section 3; the structs live in `src/fs.rs`, not among the provided sources,
but every field appears at the construction sites in the two backends).
Times are seconds since the unix epoch. -/
structure FsFileT (ε : Type) where
  name : String
  abs_path : String
  last_change_time : Nat
  last_access_time : Nat
  creation_time : Nat
  size : Nat
  ftype : Option String
  readonly : Bool
  symlink : Option ε
  user : Option Nat
  group : Option Nat
  unix_pex : Option (Nat × Nat × Nat)
deriving Repr

/-- Modelled from the spec: the `FsDirectory` struct (spec section 3). -/
structure FsDirT (ε : Type) where
  name : String
  abs_path : String
  last_change_time : Nat
  last_access_time : Nat
  creation_time : Nat
  readonly : Bool
  symlink : Option ε
  user : Option Nat
  group : Option Nat
  unix_pex : Option (Nat × Nat × Nat)
deriving Repr

/-- `FsEntry`: tagged union of a file and a directory. -/
inductive FsEntry where
  | file : FsFileT FsEntry → FsEntry
  | directory : FsDirT FsEntry → FsEntry

/-- `FsEntry::get_abs_path`. -/
def FsEntry.get_abs_path : FsEntry → String
  | .file f => f.abs_path
  | .directory d => d.abs_path

/-- `FsEntry::get_name`. -/
def FsEntry.get_name : FsEntry → String
  | .file f => f.name
  | .directory d => d.name

/-- The symlink field of an entry. -/
def FsEntry.symlinkOf : FsEntry → Option FsEntry
  | .file f => f.symlink
  | .directory d => d.symlink

/-- Whether the entry is tagged as a directory. -/
def FsEntry.isDirE : FsEntry → Bool
  | .file _ => false
  | .directory _ => true

/-! ## The `ls -l` line tokenizer of the shell-copy backend

`ScpFileTransfer::parse_ls_output` matches each line against the anchored
regex
`([-ld])([-rwxs]\x7b9\x7d)\s+(\d+)\s+(\w+)\s+(\w+)\s+(\d+)\s+(\w\x7b3\x7d\s+\d\x7b1,2\x7d\s+(?:\d\x7b1,2\x7d:\d\x7b1,2\x7d|\d\x7b4\x7d))\s+(.+)$`.
The deterministic matcher below reproduces it: at every token boundary the
character classes on the two sides are disjoint (digit/word vs whitespace),
so greedy maximal munch plus an explicit length check agrees with the
regex engine's leftmost-first semantics; the only places backtracking can
succeed are the `hour:minute`-vs-`year` alternation (tried in order below;
if the first branch matches, the second cannot match the same text) and the
final `\s+(.+)$` when the tail is all whitespace (the capture then degrades
to a single space, reproduced below).  `\s`, `\d` and `\w` are modelled at
their ASCII meaning. -/

/-- Regex class `\s` (ASCII part). -/
def isSpaceC (c : Char) : Bool :=
  c = ' ' || c = '\t' || c = '\n' || c = '\r' || c = '\x0b' || c = '\x0c'

/-- Regex class `\d` (ASCII part). -/
def isDigitC (c : Char) : Bool := c.isDigit

/-- Regex class `\w` (ASCII part). -/
def isWordC (c : Char) : Bool := c.isAlphanum || c = '_'

/-- Takes a non-empty maximal run of characters satisfying `p`; fails when
the run is empty. -/
def takeRun1 (p : Char → Bool) (cs : List Char) : Option (List Char × List Char) :=
  let t := cs.takeWhile p
  if t.isEmpty then none else some (t, cs.drop t.length)

/-- The captured tokens of one matching `ls -l` line (regex groups 1-8). -/
structure LsTok where
  flag : Char
  pexs : List Char
  links : List Char
  uid : List Char
  gid : List Char
  sizeTok : List Char
  timeTok : List Char
  nameTok : List Char
deriving DecidableEq, Repr

/-- The modification-time token:
`\w\x7b3\x7d\s+\d\x7b1,2\x7d\s+(?:\d\x7b1,2\x7d:\d\x7b1,2\x7d|\d\x7b4\x7d)`. -/
def matchTime (cs : List Char) : Option (List Char × List Char) :=
  let mon := cs.take 3
  if mon.length = 3 ∧ mon.all isWordC then do
    let (s1, r1) ← takeRun1 isSpaceC (cs.drop 3)
    let (day, r2) ← takeRun1 isDigitC r1
    if day.length ≤ 2 then do
      let (s2, r3) ← takeRun1 isSpaceC r2
      -- hour:minute branch first, year branch second
      let hh := r3.takeWhile isDigitC
      let afterH := r3.drop hh.length
      if 1 ≤ hh.length ∧ hh.length ≤ 2 ∧ afterH.head? = some ':' then
        let mm := (afterH.drop 1).takeWhile isDigitC
        if 1 ≤ mm.length ∧ mm.length ≤ 2 then
          some (mon ++ s1 ++ day ++ s2 ++ hh ++ ':' :: mm,
            (afterH.drop 1).drop mm.length)
        else none
      else if hh.length = 4 then
        some (mon ++ s1 ++ day ++ s2 ++ hh, afterH)
      else none
    else none
  else none

/-- The full line matcher (one `ls -l` output line against the listing
regex), returning the captured groups. -/
def lsMatch (cs : List Char) : Option LsTok := do
  let flag :: r0 := cs | none
  if flag = '-' ∨ flag = 'l' ∨ flag = 'd' then
    let pexs := r0.take 9
    if pexs.length = 9 ∧ pexs.all (fun c => c ∈ ['-', 'r', 'w', 'x', 's']) then do
      let (_, r1) ← takeRun1 isSpaceC (r0.drop 9)
      let (links, r2) ← takeRun1 isDigitC r1
      let (_, r3) ← takeRun1 isSpaceC r2
      let (uid, r4) ← takeRun1 isWordC r3
      let (_, r5) ← takeRun1 isSpaceC r4
      let (gid, r6) ← takeRun1 isWordC r5
      let (_, r7) ← takeRun1 isSpaceC r6
      let (sz, r8) ← takeRun1 isDigitC r7
      let (_, r9) ← takeRun1 isSpaceC r8
      let (tm, r10) ← matchTime r9
      let (sp, r11) ← takeRun1 isSpaceC r10
      let name ←
        if r11 ≠ [] then some r11
        else if 2 ≤ sp.length then some [' ']
        else none
      some ⟨flag, pexs, links, uid, gid, sz, tm, name⟩
    else none
  else none

/-! ## Permission decoding and the POSIX mode computation -/

/-- The weight of position `i` inside one 3-character permission group
(the `match i` inside the `pex` closure of `parse_ls_output`). -/
def pexWeight (i : Nat) : Nat :=
  if i = 0 then 4 else if i = 1 then 2 else if i = 2 then 1 else 0

/-- The total weight still available from position `n` on (`4+2+1` from the
start, nothing from position 3 on). -/
def pexRemaining (n : Nat) : Nat :=
  if n = 0 then 7 else if n = 1 then 3 else if n = 2 then 1 else 0

/-- The `pex` closure of `parse_ls_output`: any character other than `-`
contributes the weight of its position. -/
def pexCount (cs : List Char) : Nat :=
  (cs.enum).foldl (fun count ic =>
    if ic.2 = '-' then count else count + pexWeight ic.1) 0

/-- The permission triple decoded from a 9-character permission string
(`pex(0..3), pex(3..6), pex(6..9)` in `parse_ls_output`). -/
def unixPexOf (s : String) : Nat × Nat × Nat :=
  (pexCount (s.toList.take 3),
   pexCount ((s.toList.drop 3).take 3),
   pexCount ((s.toList.drop 6).take 3))

/-- The POSIX mode computed by `send_file` in both backends:
`owner<<6 | group<<3 | other`, defaulting to octal 644 when the permission
triple is unknown. -/
def sendFileMode (pex : Option (Nat × Nat × Nat)) : Nat :=
  match pex with
  | none => 0o644
  | some (u, g, o) => (u <<< 6) + (g <<< 3) + o

/-- The metadata-to-triple mapping of the native-SFTP entry constructor
`make_fsentry`: bits 6-8, 3-5 and 0-2 of the mode. -/
def decodePerm (x : Nat) : Nat × Nat × Nat :=
  ((x >>> 6) &&& 0x7, (x >>> 3) &&& 0x7, x &&& 0x7)

/-! ## Number parsing (`str::parse` on `ls` tokens) -/

/-- The numeric value of a digit string. -/
def digitsToNat (cs : List Char) : Nat :=
  cs.foldl (fun n c => n * 10 + (c.toNat - '0'.toNat)) 0

/-- Rust `str::parse::<u32>` on a token (the tokens fed to it match `\w+`,
so the sign-prefix cases of `parse` cannot arise): all characters must be
digits and the value must fit in 32 bits. -/
def parseU32 (s : String) : Option Nat :=
  if s.toList ≠ [] ∧ s.toList.all Char.isDigit then
    if digitsToNat s.toList < 2 ^ 32 then some (digitsToNat s.toList) else none
  else none

/-- Rust `str::parse::<usize>().unwrap_or(0)` on a digits-only token
(64-bit `usize`). -/
def parseUsize (s : String) : Nat :=
  if s.toList ≠ [] ∧ s.toList.all Char.isDigit then
    if digitsToNat s.toList < 2 ^ 64 then digitsToNat s.toList else 0
  else 0

/-! ## Splitting a filename token on an arrow (`get_name_and_link`) -/

/-- Splits a character list at the first occurrence of `sep`: the part
before it, and (when present) everything after it. -/
def splitFirst (sep : List Char) : List Char → List Char × Option (List Char)
  | [] => ([], none)
  | c :: rest =>
    if sep.isPrefixOf (c :: rest) then ([], some ((c :: rest).drop sep.length))
    else
      let (a, r) := splitFirst sep rest
      (c :: a, r)

/-- `ScpFileTransfer::get_name_and_link`: Rust splits the token on every
occurrence of the arrow and takes pieces 0 and 1, so the link target is the
part between the first and (if any) second arrow. -/
def get_name_and_link (token : String) : String × Option String :=
  let arrow : List Char := [' ', '-', '>', ' ']
  let (a, r) := splitFirst arrow token.toList
  (String.mk a, r.map (fun r2 => String.mk (splitFirst arrow r2).1))

/-! ## Shell-copy (SCP) backend -/

/-- The environment of a shell-copy backend: everything the Rust code
obtains from libssh2, the remote server or the local filesystem.
`shell cmd` is the captured standard output of executing `cmd` on a fresh
channel (`none` models channel-open/exec/read failure); `localIsDir` is
`std::path::Path::is_dir`, a metadata query answered by the LOCAL machine;
`parseLstime` is `crate::utils::parser::parse_lstime` (not among the
provided sources; abstracted as an oracle, `none` meaning unparsable, in
which case the code falls back to the epoch). -/
structure ScpEnv where
  shell : String → Option String
  localIsDir : String → Bool
  parseLstime : String → Option Nat
  localFileLen : String → Option Nat
  scpSendOk : String → Nat → Nat → Nat × Nat → Bool
  scpRecvOk : String → Bool
  disconnectOk : Bool
  resolveAddrs : String → Nat → Option (List String)
  tcpOk : String → Bool
  sessionNewOk : Bool
  handshakeOk : Bool
  keyResolve : String → String → Option String
  pubkeyAuthOk : Bool
  passwordAuthOk : Bool
  banner : Option String

/-- The observable state of `ScpFileTransfer`: whether `session` is `Some`,
and the working-directory cursor. -/
structure ScpState where
  session : Bool
  wrkdir : String
deriving DecidableEq, Repr

/-- `ScpFileTransfer::new`: no session, working directory `~`. -/
def scpFresh : ScpState := ⟨false, "~"⟩

/-- `is_connected`. -/
def scp_is_connected (st : ScpState) : Bool := st.session

/-- `perform_shell_cmd`: fails with `UninitializedSession` when there is no
session; channel failures surface as `ProtocolError`. -/
def performShellCmd (env : ScpEnv) (st : ScpState) (cmd : String) : Outcome String :=
  if st.session then
    match env.shell cmd with
    | some out => .ok out
    | none => .err .ProtocolError
  else .err .UninitializedSession

/-- `perform_shell_cmd_with_path`: prefix the command with a `cd` into the
given directory. -/
def performShellCmdWithPath (env : ScpEnv) (st : ScpState) (p cmd : String) :
    Outcome String :=
  performShellCmd env st ("cd \"" ++ p ++ "\"; " ++ cmd)

/-- Result of `parse_ls_output` (`Result<FsEntry, ()>` plus the divergence
and panic markers of the embedding). -/
inductive ParseRes where
  | ok (e : FsEntry)
  | fail
  | spin
  | panic

/-- Builds the `FsEntry` of `parse_ls_output` from the collected metadata
(directory when `is_dir`, file otherwise; `abs_path` is the listing path
with the file name pushed; `mtime` fills all three timestamps). -/
def mkScpEntry (path file_name : String) (is_dir : Bool)
    (symlink : Option FsEntry) (mtime filesize : Nat)
    (uid gid : Option Nat) (unix_pex : Nat × Nat × Nat) : FsEntry :=
  let abs_path := pushPath path file_name
  if is_dir then
    .directory ⟨file_name, abs_path, mtime, mtime, mtime, false, symlink,
      uid, gid, some unix_pex⟩
  else
    .file ⟨file_name, abs_path, mtime, mtime, mtime, filesize,
      extension abs_path, false, symlink, uid, gid, some unix_pex⟩

/-- The body of `ScpFileTransfer::parse_ls_output`, parameterized by the
recursive `stat` used to resolve a symlink target (`statF`), so that the
recursion is tied through the fuel-indexed `scp_stat` below.  Besides the
parse result it returns the list of link targets resolved through `statF`
and the list of link targets queried through the local `Path::is_dir`
(both in source order) — the instrumentation needed to state how often the
target of a symlink is consulted. -/
def parse_core (env : ScpEnv) (statF : String → Outcome FsEntry)
    (path : String) (line : String) : ParseRes × List String × List String :=
  match lsMatch line.toList with
  | none => (.fail, [], [])
  | some tok =>
    -- file type flag: `-` file, `l` symlink, `d` directory (the regex class
    -- admits only these three, so the catch-all Err arm is unreachable)
    if tok.flag = '-' ∨ tok.flag = 'l' ∨ tok.flag = 'd' then
      let is_dir : Bool := tok.flag = 'd'
      let unix_pex := unixPexOf (String.mk tok.pexs)
      let mtime := (env.parseLstime (String.mk tok.timeTok)).getD 0
      let uid := parseU32 (String.mk tok.uid)
      let gid := parseU32 (String.mk tok.gid)
      let filesize := parseUsize (String.mk tok.sizeTok)
      if tok.flag = 'l' then
        -- symlink: the token is split into the name and an optional target
        match get_name_and_link (String.mk tok.nameTok) with
        | (file_name, none) =>
          if file_name = "." ∨ file_name = ".." then (.fail, [], [])
          else
            (.ok (mkScpEntry path file_name is_dir none mtime filesize uid gid
              unix_pex), [], [])
        | (file_name, some tgt) =>
          -- `is_dir = symlink_path.is_dir()`: the directory flag is re-read
          -- from the local filesystem whenever a link target is present
          let is_dir := env.localIsDir tgt
          -- the target is stat'ed only when its file name differs from the
          -- link's own name (otherwise resolution would get stuck)
          if (fileName tgt).getD "" = file_name then
            if file_name = "." ∨ file_name = ".." then (.fail, [], [tgt])
            else
              (.ok (mkScpEntry path file_name is_dir none mtime filesize uid
                gid unix_pex), [], [tgt])
          else
            match statF tgt with
            | .spin => (.spin, [tgt], [tgt])
            | .panic => (.panic, [tgt], [tgt])
            | .ok e =>
              if file_name = "." ∨ file_name = ".." then (.fail, [tgt], [tgt])
              else
                (.ok (mkScpEntry path file_name is_dir (some e) mtime
                  filesize uid gid unix_pex), [tgt], [tgt])
            | .err _ =>
              if file_name = "." ∨ file_name = ".." then (.fail, [tgt], [tgt])
              else
                (.ok (mkScpEntry path file_name is_dir none mtime filesize
                  uid gid unix_pex), [tgt], [tgt])
      else
        let file_name := String.mk tok.nameTok
        if file_name = "." ∨ file_name = ".." then (.fail, [], [])
        else
          (.ok (mkScpEntry path file_name is_dir none mtime filesize uid gid
            unix_pex), [], [])
    else (.fail, [], [])

/-- The body of `ScpFileTransfer::stat`: rejects paths that are directories
on the LOCAL machine, resolves the path against the working directory, runs
`ls -l <path>` and parses the (trimmed) line relative to the path's parent,
resolving symlink targets through `statF`. -/
def scp_stat_body (env : ScpEnv) (st : ScpState)
    (statF : String → Outcome FsEntry) (path : String) : Outcome FsEntry :=
  if env.localIsDir path then .err .UnsupportedFeature
  else
    let rpath := if startsSlash path then path else pushPath st.wrkdir path
    if st.session then
      match performShellCmdWithPath env st st.wrkdir
          ("ls -l \"" ++ rpath ++ "\"") with
      | .ok line =>
        match parentPath rpath with
        | none => .err .UnsupportedFeature
        | some parent =>
          match parse_core env statF parent (trimS line) with
          | (.ok entry, _, _) => .ok entry
          | (.fail, _, _) => .err .NoSuchFileOrDirectory
          | (.spin, _, _) => .spin
          | (.panic, _, _) => .panic
      | .err _ => .err .ProtocolError
      | .panic => .panic
      | .spin => .spin
    else .err .UninitializedSession

/-- `ScpFileTransfer::stat` at a given recursion budget: the symlink
resolution inside the parse recurses into `stat` with one unit of fuel
less; exhausted fuel marks the still-running computation with `spin`. -/
def scp_stat (env : ScpEnv) (st : ScpState) : Nat → String → Outcome FsEntry :=
  fun fuel path =>
    scp_stat_body env st
      (fun p =>
        match fuel with
        | 0 => .spin
        | fuel + 1 => scp_stat env st fuel p)
      path

/-- `ScpFileTransfer::parse_ls_output` at a given recursion budget: symlink
targets are resolved through `scp_stat` with one unit of fuel less. -/
def parse_ls_output (env : ScpEnv) (fuel : Nat) (st : ScpState)
    (path : String) (line : String) : ParseRes × List String × List String :=
  parse_core env
    (fun p =>
      match fuel with
      | 0 => .spin
      | fuel + 1 => scp_stat env st fuel p)
    path line

/-- Rust `str::lines`: split on newline, dropping one trailing carriage
return per line and ignoring a final trailing newline. -/
def linesOf (s : String) : List String :=
  let ps := splitOnC '\n' s.toList
  let ps := if ps.getLast? = some [] then ps.dropLast else ps
  ps.map (fun l => String.mk (if l.getLast? = some '\r' then l.dropLast else l))

/-- The line loop of `list_dir`: lines that parse push an entry, lines that
fail to parse are skipped. -/
def parseLines (env : ScpEnv) (fuel : Nat) (st : ScpState) (path : String) :
    List String → Outcome (List FsEntry)
  | [] => .ok []
  | l :: ls =>
    match parse_ls_output env fuel st path l with
    | (.ok e, _, _) =>
      match parseLines env fuel st path ls with
      | .ok es => .ok (e :: es)
      | r => r
    | (.fail, _, _) => parseLines env fuel st path ls
    | (.spin, _, _) => .spin
    | (.panic, _, _) => .panic

/-- `ScpFileTransfer::list_dir`: run `unset LANG; ls -la <path>` and parse
every output line, silently skipping the ones that do not parse. -/
def scp_list_dir (env : ScpEnv) (fuel : Nat) (st : ScpState) (path : String) :
    Outcome (List FsEntry) :=
  if st.session then
    match performShellCmdWithPath env st st.wrkdir
        ("unset LANG; ls -la \"" ++ path ++ "\"") with
    | .ok out => parseLines env fuel st path (linesOf out)
    | .err _ => .err .ProtocolError
    | .panic => .panic
    | .spin => .spin
  else .err .UninitializedSession

/-- `ScpFileTransfer::pwd`. -/
def scp_pwd (st : ScpState) : Outcome String :=
  if st.session then .ok st.wrkdir else .err .UninitializedSession

/-- `ScpFileTransfer::change_dir`: run `cd <target>; echo $?; pwd`; the
trimmed output must start with `0`, and the rest (trimmed again) becomes
the new working directory; otherwise `NoSuchFileOrDirectory`. -/
def scp_change_dir (env : ScpEnv) (st : ScpState) (dir : String) :
    Outcome String × ScpState :=
  if st.session then
    let remote_path := if startsSlash dir then dir else pushPath "." dir
    match performShellCmdWithPath env st st.wrkdir
        ("cd \"" ++ remote_path ++ "\"; echo $?; pwd") with
    | .ok output =>
      let output := trimS output
      if startsWithC output '0' then
        let w := trimS (dropOne output)
        (.ok w, { st with wrkdir := w })
      else (.err .NoSuchFileOrDirectory, st)
    | .err _ => (.err .ProtocolError, st)
    | .panic => (.panic, st)
    | .spin => (.spin, st)
  else (.err .UninitializedSession, st)

/-- `ScpFileTransfer::copy`: `cp -rf <src> <dst>; echo $?`, success iff the
trimmed output is `0`, otherwise `FileCreateDenied`. -/
def scp_copy (env : ScpEnv) (st : ScpState) (src : FsEntry) (dst : String) :
    Outcome Unit :=
  if st.session then
    match performShellCmdWithPath env st st.wrkdir
        ("cp -rf \"" ++ src.get_abs_path ++ "\" \"" ++ dst ++ "\"; echo $?") with
    | .ok output => if trimS output = "0" then .ok () else .err .FileCreateDenied
    | .err _ => .err .ProtocolError
    | .panic => .panic
    | .spin => .spin
  else .err .UninitializedSession

/-- `ScpFileTransfer::mkdir`: `mkdir <dir>; echo $?`, success iff the
trimmed output is `0`, otherwise `FileCreateDenied`. -/
def scp_mkdir (env : ScpEnv) (st : ScpState) (dir : String) : Outcome Unit :=
  if st.session then
    match performShellCmdWithPath env st st.wrkdir
        ("mkdir \"" ++ dir ++ "\"; echo $?") with
    | .ok output => if trimS output = "0" then .ok () else .err .FileCreateDenied
    | .err _ => .err .ProtocolError
    | .panic => .panic
    | .spin => .spin
  else .err .UninitializedSession

/-- `ScpFileTransfer::remove`: `rm -rf <path>; echo $?`, success iff the
trimmed output is `0`, otherwise `PexError`. -/
def scp_remove (env : ScpEnv) (st : ScpState) (file : FsEntry) : Outcome Unit :=
  if st.session then
    match performShellCmdWithPath env st st.wrkdir
        ("rm -rf \"" ++ file.get_abs_path ++ "\"; echo $?") with
    | .ok output => if trimS output = "0" then .ok () else .err .PexError
    | .err _ => .err .ProtocolError
    | .panic => .panic
    | .spin => .spin
  else .err .UninitializedSession

/-- `ScpFileTransfer::rename`: `mv -f <src> <dst>; echo $?`, success iff the
trimmed output is `0`, otherwise `PexError`. -/
def scp_rename (env : ScpEnv) (st : ScpState) (file : FsEntry) (dst : String) :
    Outcome Unit :=
  if st.session then
    match performShellCmdWithPath env st st.wrkdir
        ("mv -f \"" ++ file.get_abs_path ++ "\" \"" ++ dst ++ "\"; echo $?") with
    | .ok output => if trimS output = "0" then .ok () else .err .PexError
    | .err _ => .err .ProtocolError
    | .panic => .panic
    | .spin => .spin
  else .err .UninitializedSession

/-- `ScpFileTransfer::exec`: the command is run verbatim from the working
directory and its captured output returned. -/
def scp_exec (env : ScpEnv) (st : ScpState) (cmd : String) : Outcome String :=
  if st.session then
    match performShellCmdWithPath env st st.wrkdir cmd with
    | .ok output => .ok output
    | .err _ => .err .ProtocolError
    | .panic => .panic
    | .spin => .spin
  else .err .UninitializedSession

/-- `ScpFileTransfer::disconnect`: a session must exist; on success the
session is cleared, on transport failure it is kept. -/
def scp_disconnect (env : ScpEnv) (st : ScpState) : Outcome Unit × ScpState :=
  if st.session then
    if env.disconnectOk then (.ok (), { st with session := false })
    else (.err .ConnectionError, st)
  else (.err .UninitializedSession, st)

/-- `ScpFileTransfer::send_file`: computes the POSIX mode from the local
entry's permission triple, the time pair from its recorded timestamps, and
the declared size from the actual on-disk length (falling back to the
cached `size` field), then opens the scp send channel. -/
def scp_send_file (env : ScpEnv) (st : ScpState) (localF : FsFileT FsEntry)
    (file_name : String) : Outcome Unit :=
  if st.session then
    let mode := sendFileMode localF.unix_pex
    let times := (localF.last_change_time, localF.last_access_time)
    let file_size := (env.localFileLen localF.abs_path).getD localF.size
    if env.scpSendOk file_name mode file_size times then .ok ()
    else .err .ProtocolError
  else .err .UninitializedSession

/-- `ScpFileTransfer::recv_file`: opens the scp receive channel for the
entry's absolute path. -/
def scp_recv_file (env : ScpEnv) (st : ScpState) (file : FsFileT FsEntry) :
    Outcome Unit :=
  if st.session then
    if env.scpRecvOk file.abs_path then .ok () else .err .ProtocolError
  else .err .UninitializedSession

/-- `ScpFileTransfer::connect`: resolve the address, try each socket
address in order, create a session, handshake, authenticate (public key if
the resolver finds one, password otherwise), store the session, then read
the working directory with `pwd`.  A `pwd` failure is returned as an error,
but the session has already been stored. -/
def scp_connect (env : ScpEnv) (st : ScpState) (address : String) (port : Nat)
    (username _password : Option String) : Outcome (Option String) × ScpState :=
  match env.resolveAddrs address port with
  | none => (.err .BadAddress, st)
  | some addrs =>
    match addrs.find? env.tcpOk with
    | none => (.err .ConnectionError, st)
    | some _ =>
      if !env.sessionNewOk then (.err .ConnectionError, st)
      else if !env.handshakeOk then (.err .ConnectionError, st)
      else
        let user := username.getD ""
        let authOk :=
          match env.keyResolve address user with
          | some _ => env.pubkeyAuthOk
          | none => env.passwordAuthOk
        if !authOk then (.err .AuthenticationFailed, st)
        else
          let st1 : ScpState := { st with session := true }
          match performShellCmd env st1 "pwd" with
          | .ok output => (.ok env.banner, { st1 with wrkdir := trimS output })
          | .err e => (.err e, st1)
          | .panic => (.panic, st1)
          | .spin => (.spin, st1)

/-! ## Native-SFTP backend -/

/-- `ssh2::FileStat`: the protocol metadata of one remote entry.  The file
type is carried by the mode bits in `perm`, as in the ssh2 crate. -/
structure FileStat where
  size : Option Nat
  uid : Option Nat
  gid : Option Nat
  perm : Option Nat
  atime : Option Nat
  mtime : Option Nat
deriving DecidableEq, Repr

/-- `FileStat::is_dir`: the `S_IFMT` bits of the mode equal `S_IFDIR`. -/
def FileStat.isDirS (m : FileStat) : Bool :=
  (m.perm.getD 0) &&& 0o170000 = 0o040000

/-- `FileStat::file_type().is_symlink()`: the `S_IFMT` bits equal
`S_IFLNK`. -/
def FileStat.isSymlinkS (m : FileStat) : Bool :=
  (m.perm.getD 0) &&& 0o170000 = 0o120000

/-- One primitive call issued by the native-SFTP backend to the sub-protocol
handle (the observable interaction trace of an operation). -/
inductive SPrim where
  | realpathQ (p : String)
  | statQ (p : String)
  | readdirQ (p : String)
  | readlinkQ (p : String)
  | unlinkQ (p : String)
  | rmdirQ (p : String)
  | mkdirQ (p : String)
deriving DecidableEq, Repr

/-- Whether a primitive call is a read-only query (path resolution,
metadata, listing, link reading) rather than a mutation. -/
def SPrim.isRead : SPrim → Bool
  | .realpathQ _ => true
  | .statQ _ => true
  | .readdirQ _ => true
  | .readlinkQ _ => true
  | .unlinkQ _ => false
  | .rmdirQ _ => false
  | .mkdirQ _ => false

/-- The environment of a native-SFTP backend: the sub-protocol handle's
answers (pure oracles; the success of the mutating calls is part of the
oracle, the trace of issued calls is returned by each operation). -/
structure SftpEnv where
  realpath : String → Option String
  statMeta : String → Option FileStat
  readdir : String → Option (List (String × FileStat))
  readlink : String → Option String
  unlinkOk : String → Bool
  rmdirOk : String → Bool
  mkdirOk : String → Bool
  renameOk : String → String → Bool
  openModeOk : String → Nat → Bool
  openOk : String → Bool
  shell : String → Option String
  disconnectOk : Bool

/-- The observable state of `SftpFileTransfer`: whether `session` and
`sftp` are `Some`, and the working-directory cursor. -/
structure SftpState where
  session : Bool
  sftp : Bool
  wrkdir : String
deriving DecidableEq, Repr

/-- `SftpFileTransfer::new`. -/
def sftpFresh : SftpState := ⟨false, false, "~"⟩

/-- `SftpFileTransfer::is_connected` (checks the session handle). -/
def sftp_is_connected (st : SftpState) : Bool := st.session

/-- `SftpFileTransfer::get_remote_path`: canonicalize the (possibly
relative) path against the working directory with `realpath`, then confirm
existence with a `stat`; any failure is `NoSuchFileOrDirectory`.  Only
called with the `sftp` handle present. -/
def get_remote_path (env : SftpEnv) (st : SftpState) (p : String) :
    Outcome String × List SPrim :=
  let root := if startsSlash p then p else pushPath st.wrkdir p
  match env.realpath root with
  | some q =>
    match env.statMeta q with
    | some _ => (.ok q, [.realpathQ root, .statQ q])
    | none => (.err .NoSuchFileOrDirectory, [.realpathQ root, .statQ q])
  | none => (.err .NoSuchFileOrDirectory, [.realpathQ root])

/-- `SftpFileTransfer::get_abs_path`: best-effort canonicalization, falling
back to naive concatenation (absolute paths are passed through). -/
def sftp_get_abs_path (env : SftpEnv) (st : SftpState) (p : String) :
    String × List SPrim :=
  if startsSlash p then (p, [])
  else
    let root := pushPath st.wrkdir p
    match env.realpath root with
    | some q => (q, [.realpathQ root])
    | none => (root, [.realpathQ root])

/-- The entry construction at the end of `make_fsentry` (directory when the
metadata mode says so, file otherwise; `abs_path` is the path itself, the
name its final component, times from the metadata, creation time at the
epoch). -/
def mkSftpEntry (path file_name : String) (metadata : FileStat)
    (symlink : Option FsEntry) : FsEntry :=
  if metadata.isDirS then
    .directory ⟨file_name, path, metadata.mtime.getD 0, metadata.atime.getD 0,
      0, false, symlink, metadata.uid, metadata.gid,
      metadata.perm.map decodePerm⟩
  else
    .file ⟨file_name, path, metadata.mtime.getD 0, metadata.atime.getD 0,
      0, metadata.size.getD 0, extension path, false, symlink, metadata.uid,
      metadata.gid, metadata.perm.map decodePerm⟩

/-- The body of `SftpFileTransfer::make_fsentry`, parameterized by the
recursive `stat` used to resolve a symlink target (`statF`), tied through
the fuel-indexed `sftp_stat` below.  `path.file_name().unwrap()` panics
when the path has no final component; a symlink triggers one `readlink`
plus one recursive `stat` of the target (whose errors are swallowed). -/
def make_core (env : SftpEnv)
    (statF : String → Outcome FsEntry × List SPrim)
    (path : String) (metadata : FileStat) : Outcome FsEntry × List SPrim :=
  match fileName path with
  | none => (.panic, [])
  | some file_name =>
    if metadata.isSymlinkS then
      match env.readlink path with
      | some p2 =>
        match statF p2 with
        | (.ok entry, t) =>
          (.ok (mkSftpEntry path file_name metadata (some entry)),
            .readlinkQ path :: t)
        | (.err _, t) =>
          (.ok (mkSftpEntry path file_name metadata none),
            .readlinkQ path :: t)
        | (.panic, t) => (.panic, .readlinkQ path :: t)
        | (.spin, t) => (.spin, .readlinkQ path :: t)
      | none =>
        (.ok (mkSftpEntry path file_name metadata none), [.readlinkQ path])
    else (.ok (mkSftpEntry path file_name metadata none), [])

/-- The body of `SftpFileTransfer::stat`: resolve the path with
`get_remote_path`, stat it, and build the entry, resolving symlink targets
through `statF`. -/
def sftp_stat_body (env : SftpEnv) (st : SftpState)
    (statF : String → Outcome FsEntry × List SPrim) (path : String) :
    Outcome FsEntry × List SPrim :=
  if st.sftp then
    match get_remote_path env st path with
    | (.ok dir, t) =>
      match env.statMeta dir with
      | some metadata =>
        match make_core env statF dir metadata with
        | (r, t') => (r, t ++ [.statQ dir] ++ t')
      | none => (.err .NoSuchFileOrDirectory, t ++ [.statQ dir])
    | (.err e, t) => (.err e, t)
    | (.panic, t) => (.panic, t)
    | (.spin, t) => (.spin, t)
  else (.err .UninitializedSession, [])

/-- `SftpFileTransfer::stat` at a given recursion budget: symlink
resolution inside the entry construction recurses into `stat` with one
unit of fuel less. -/
def sftp_stat (env : SftpEnv) (st : SftpState) :
    Nat → String → Outcome FsEntry × List SPrim :=
  fun fuel path =>
    sftp_stat_body env st
      (fun p =>
        match fuel with
        | 0 => (.spin, [])
        | fuel + 1 => sftp_stat env st fuel p)
      path

/-- `SftpFileTransfer::make_fsentry` at a given recursion budget. -/
def make_fsentry (env : SftpEnv) (fuel : Nat) (st : SftpState)
    (path : String) (metadata : FileStat) : Outcome FsEntry × List SPrim :=
  make_core env
    (fun p =>
      match fuel with
      | 0 => (.spin, [])
      | fuel + 1 => sftp_stat env st fuel p)
    path metadata

/-- The entry loop of `list_dir`: convert every (path, metadata) pair in
order. -/
def makeEntries (env : SftpEnv) (fuel : Nat) (st : SftpState) :
    List (String × FileStat) → Outcome (List FsEntry) × List SPrim
  | [] => (.ok [], [])
  | (p, m) :: rest =>
    match make_fsentry env fuel st p m with
    | (.ok e, t) =>
      match makeEntries env fuel st rest with
      | (.ok es, t') => (.ok (e :: es), t ++ t')
      | (r, t') => (r, t ++ t')
    | (.err e, t) => (.err e, t)
    | (.panic, t) => (.panic, t)
    | (.spin, t) => (.spin, t)

/-- `SftpFileTransfer::list_dir`: resolve the path, `readdir` it, and
convert every returned pair. -/
def sftp_list_dir (env : SftpEnv) (fuel : Nat) (st : SftpState)
    (path : String) : Outcome (List FsEntry) × List SPrim :=
  if st.sftp then
    match get_remote_path env st path with
    | (.ok dir, t) =>
      match env.readdir dir with
      | none => (.err .DirStatFailed, t ++ [.readdirQ dir])
      | some files =>
        match makeEntries env fuel st files with
        | (r, t') => (r, t ++ [.readdirQ dir] ++ t')
    | (.err e, t) => (.err e, t)
    | (.panic, t) => (.panic, t)
    | (.spin, t) => (.spin, t)
  else (.err .UninitializedSession, [])

/-- The child loop of `remove`: remove each entry in order with the given
removal function, stopping at the first failure. -/
def removeEach (removeF : FsEntry → Outcome Unit × List SPrim) :
    List FsEntry → Outcome Unit × List SPrim
  | [] => (.ok (), [])
  | entry :: rest =>
    match removeF entry with
    | (.ok (), t) =>
      match removeEach removeF rest with
      | (r, t') => (r, t ++ t')
    | (r, t) => (r, t)

/-- `SftpFileTransfer::remove`: a file is unlinked directly; a directory is
removed by listing its direct children, recursively removing each in listed
order, and only then issuing `rmdir`; any child failure aborts
immediately.  Each directory level consumes one unit of fuel. -/
def sftp_remove (env : SftpEnv) (st : SftpState) :
    Nat → FsEntry → Outcome Unit × List SPrim :=
  fun fuel file =>
    if st.sftp then
      match file with
      | .file f =>
        if env.unlinkOk f.abs_path then (.ok (), [.unlinkQ f.abs_path])
        else (.err .PexError, [.unlinkQ f.abs_path])
      | .directory d =>
        match fuel with
        | 0 => (.spin, [])
        | fuel + 1 =>
          match sftp_list_dir env fuel st d.abs_path with
          | (.ok directory_content, t) =>
            match removeEach (sftp_remove env st fuel) directory_content with
            | (.ok (), t') =>
              if env.rmdirOk d.abs_path then
                (.ok (), t ++ t' ++ [.rmdirQ d.abs_path])
              else (.err .PexError, t ++ t' ++ [.rmdirQ d.abs_path])
            | (r, t') => (r, t ++ t')
          | (.err e, t) => (.err e, t)
          | (.panic, t) => (.panic, t)
          | (.spin, t) => (.spin, t)
    else (.err .UninitializedSession, [])

/-- The child loop of `remove` at a given recursion budget. -/
def sftp_remove_list (env : SftpEnv) (fuel : Nat) (st : SftpState)
    (entries : List FsEntry) : Outcome Unit × List SPrim :=
  removeEach (sftp_remove env st fuel) entries

/-- `SftpFileTransfer::pwd` (checks the `sftp` handle). -/
def sftp_pwd (st : SftpState) : Outcome String :=
  if st.sftp then .ok st.wrkdir else .err .UninitializedSession

/-- `SftpFileTransfer::change_dir`: the working directory becomes the
validated remote path. -/
def sftp_change_dir (env : SftpEnv) (st : SftpState) (dir : String) :
    Outcome String × SftpState :=
  if st.sftp then
    match get_remote_path env st dir with
    | (.ok p, _) => (.ok p, { st with wrkdir := p })
    | (.err e, _) => (.err e, st)
    | (.panic, _) => (.panic, st)
    | (.spin, _) => (.spin, st)
  else (.err .UninitializedSession, st)

/-- `SftpFileTransfer::copy`: the protocol has no copy primitive; always
`UnsupportedFeature`, without any session check. -/
def sftp_copy (_st : SftpState) (_src : FsEntry) (_dst : String) :
    Outcome Unit :=
  .err .UnsupportedFeature

/-- `SftpFileTransfer::mkdir`: best-effort absolute path, then the native
`mkdir` with permission `0775`; failure is `FileCreateDenied`. -/
def sftp_mkdir (env : SftpEnv) (st : SftpState) (dir : String) :
    Outcome Unit × List SPrim :=
  if st.sftp then
    match sftp_get_abs_path env st dir with
    | (path, t) =>
      if env.mkdirOk path then (.ok (), t ++ [.mkdirQ path])
      else (.err .FileCreateDenied, t ++ [.mkdirQ path])
  else (.err .UninitializedSession, [])

/-- `SftpFileTransfer::rename`: native rename, `FileCreateDenied` on
failure. -/
def sftp_rename (env : SftpEnv) (st : SftpState) (file : FsEntry)
    (dst : String) : Outcome Unit :=
  if st.sftp then
    let abs_dst := (sftp_get_abs_path env st dst).1
    let abs_src := file.get_abs_path
    if env.renameOk abs_src abs_dst then .ok () else .err .FileCreateDenied
  else .err .UninitializedSession

/-- `SftpFileTransfer::exec` (checks the session handle, like
`is_connected`): run the command from the working directory over the
transport session. -/
def sftp_exec (env : SftpEnv) (st : SftpState) (cmd : String) :
    Outcome String :=
  if st.session then
    match env.shell ("cd \"" ++ st.wrkdir ++ "\"; " ++ cmd) with
    | some output => .ok output
    | none => .err .ProtocolError
  else .err .UninitializedSession

/-- `SftpFileTransfer::disconnect`: a session must exist; on success both
the session and the sftp handle are cleared. -/
def sftp_disconnect (env : SftpEnv) (st : SftpState) :
    Outcome Unit × SftpState :=
  if st.session then
    if env.disconnectOk then
      (.ok (), { st with session := false, sftp := false })
    else (.err .ConnectionError, st)
  else (.err .UninitializedSession, st)

/-- `SftpFileTransfer::send_file`: same mode computation as the shell-copy
backend, then an `open` with write/create/append/truncate flags;
`FileCreateDenied` on failure. -/
def sftp_send_file (env : SftpEnv) (st : SftpState)
    (localF : FsFileT FsEntry) (file_name : String) : Outcome Unit :=
  if st.sftp then
    let remote_path := (sftp_get_abs_path env st file_name).1
    let mode := sendFileMode localF.unix_pex
    if env.openModeOk remote_path mode then .ok ()
    else .err .FileCreateDenied
  else .err .UninitializedSession

/-- `SftpFileTransfer::recv_file`: validate the remote path, then a plain
read `open`; `NoSuchFileOrDirectory` on failure. -/
def sftp_recv_file (env : SftpEnv) (st : SftpState)
    (file : FsFileT FsEntry) : Outcome Unit :=
  if st.sftp then
    match get_remote_path env st file.abs_path with
    | (.ok remote_path, _) =>
      if env.openOk remote_path then .ok () else .err .NoSuchFileOrDirectory
    | (.err e, _) => .err e
    | (.panic, _) => .panic
    | (.spin, _) => .spin
  else .err .UninitializedSession

/-! ## Observation helpers -/

/-- The directory tag of a successful parse result. -/
def ParseRes.entryIsDir : ParseRes → Option Bool
  | .ok e => some e.isDirE
  | _ => none

/-- The symlink field of a successful parse result. -/
def ParseRes.entrySymlink : ParseRes → Option (Option FsEntry)
  | .ok e => some e.symlinkOf
  | _ => none

/-- The name of a successful parse result. -/
def ParseRes.entryName : ParseRes → Option String
  | .ok e => some e.get_name
  | _ => none

/-- The absolute path of a successful parse result. -/
def ParseRes.entryAbs : ParseRes → Option String
  | .ok e => some e.get_abs_path
  | _ => none

/-- Whether an outcome is a typed error. -/
def Outcome.isErr {α : Type} : Outcome α → Bool
  | .err _ => true
  | _ => false

/-! ## Concrete environments for witnesses and counterexamples -/

/-- A baseline shell-copy environment: every oracle fails or is trivial. -/
def baseScpEnv : ScpEnv :=
  { shell := fun _ => none
    localIsDir := fun _ => false
    parseLstime := fun _ => none
    localFileLen := fun _ => none
    scpSendOk := fun _ _ _ _ => true
    scpRecvOk := fun _ => true
    disconnectOk := true
    resolveAddrs := fun _ _ => none
    tcpOk := fun _ => false
    sessionNewOk := true
    handshakeOk := true
    keyResolve := fun _ _ => none
    pubkeyAuthOk := true
    passwordAuthOk := true
    banner := none }

/-- A baseline native-SFTP environment: every oracle fails. -/
def baseSftpEnv : SftpEnv :=
  { realpath := fun _ => none
    statMeta := fun _ => none
    readdir := fun _ => none
    readlink := fun _ => none
    unlinkOk := fun _ => false
    rmdirOk := fun _ => false
    mkdirOk := fun _ => false
    renameOk := fun _ _ => false
    openModeOk := fun _ _ => false
    openOk := fun _ => false
    shell := fun _ => none
    disconnectOk := true }

/-- A plain file entry used as a generic operation argument. -/
def someFile : FsFileT FsEntry :=
  ⟨"omar.txt", "/omar.txt", 0, 0, 0, 0, some "txt", true, none, some 0,
    some 0, some (6, 4, 4)⟩

/-- A shell-copy environment whose local filesystem has `/tmp` as its only
directory. -/
def c1ScpEnv : ScpEnv := { baseScpEnv with localIsDir := fun p => p = "/tmp" }

/-- Metadata of a plain file (mode `0o100644`). -/
def fileMeta : FileStat := ⟨some 3, some 0, some 0, some 0o100644, some 5, some 7⟩

/-- Metadata of a directory (mode `0o040755`). -/
def dirMeta : FileStat := ⟨some 0, some 0, some 0, some 0o040755, some 5, some 7⟩

/-- A native-SFTP remote filesystem with the directory `/d` containing the
files `/d/a` and `/d/b`, of which only `/d/a` can be unlinked. -/
def c2Env : SftpEnv :=
  { baseSftpEnv with
    realpath := fun p => some p
    statMeta := fun p => if p = "/d" then some dirMeta else some fileMeta
    readdir := fun p =>
      if p = "/d" then some [("/d/a", fileMeta), ("/d/b", fileMeta)] else none
    unlinkOk := fun p => p = "/d/a"
    rmdirOk := fun _ => true }

/-- The same remote filesystem with every removal succeeding. -/
def c2EnvOk : SftpEnv := { c2Env with unlinkOk := fun _ => true }

/-- A connected native-SFTP state at `/`. -/
def sftpConn : SftpState := ⟨true, true, "/"⟩

/-- The `/d` directory entry of `c2Env`. -/
def dEntry : FsDirT FsEntry := ⟨"d", "/d", 0, 0, 0, false, none, none, none, none⟩

/-- A connected shell-copy state at `/`. -/
def scpConn : ScpState := ⟨true, "/"⟩

/-- A shell-copy environment answering every command with `0/home`. -/
def c3Env : ScpEnv := { baseScpEnv with shell := fun _ => some "0/home" }

/-- A shell-copy environment answering every command with `1`. -/
def c3EnvBad : ScpEnv := { baseScpEnv with shell := fun _ => some "1" }

/-- A shell-copy environment in which the transport connects and
authenticates, but the `pwd` command fails. -/
def c9Env : ScpEnv :=
  { baseScpEnv with
    resolveAddrs := fun _ _ => some ["10.0.0.1:22"]
    tcpOk := fun _ => true
    shell := fun _ => none }

/-- A native-SFTP remote filesystem whose canonicalization maps everything
to the root `/`, which exists and is a directory. -/
def c10Env : SftpEnv :=
  { baseSftpEnv with
    realpath := fun _ => some "/"
    statMeta := fun _ => some dirMeta }

/-- A local filesystem on which every path is a directory. -/
def c7Env : ScpEnv := { baseScpEnv with localIsDir := fun _ => true }

/-- A listing line for a symlink whose target's final component equals the
link's own name. -/
def c7Line : String := "lrwxrwxrwx 1 u u 3 Jan 1 12:00 foo -> /bar/foo"

/-- A listing line whose filename token contains a path separator (as
emitted by `ls -l` invoked on an absolute path). -/
def c8Line : String := "drwxr-xr-x 2 root root 4096 Jan 1 12:00 foo/bar"

/-- A shell-copy server on which `ls -l "/w/x"` echoes the queried absolute
path as the name token (the usual behaviour of `ls` on an explicit path
argument), feeding a slash-containing file name to the parser. -/
def c8Env : ScpEnv :=
  { baseScpEnv with
    shell := fun c =>
      if c = "cd \"/w\"; ls -l \"/w/x\"" then
        some "-rw-r--r-- 1 u u 1 Jan 1 12:00 /w/x"
      else none }

/-- A connected shell-copy state at `/w`. -/
def c6St : ScpState := ⟨true, "/w"⟩

/-- A shell-copy server with a two-step symlink cycle: listing `/w/d` shows
the link `a -> b`, and stat-ing either endpoint reports it as a symlink to
the other.  Symlink resolution therefore never terminates. -/
def c6Env : ScpEnv :=
  { baseScpEnv with
    shell := fun c =>
      if c = "cd \"/w\"; unset LANG; ls -la \"/w/d\"" then
        some "lrwxrwxrwx 1 u u 1 Jan 1 12:00 a -> b"
      else if c = "cd \"/w\"; ls -l \"/w/a\"" then
        some "lrwxrwxrwx 1 u u 1 Jan 1 12:00 /w/a -> b"
      else if c = "cd \"/w\"; ls -l \"/w/b\"" then
        some "lrwxrwxrwx 1 u u 1 Jan 1 12:00 /w/b -> a"
      else none }

/-- A shell-copy environment whose listing contains a well-formed file, a
symlink-free garbage line, and the `.`/`..` entries. -/
def c6EnvPlain : ScpEnv :=
  { baseScpEnv with
    shell := fun _ => some
      ("total 2\ndrwxr-xr-x 2 u u 6 Jan 1 12:00 .\ndrwxr-xr-x 9 u u 6 Jan 1 12:00 ..\n-rw-r--r-- 1 u u 42 Jan 1 12:00 hello.txt\n") }

/-! # Theorems -/

/-- The enumerated fold of the `pex` closure gains at most the weight still
available from its start position. -/
theorem pexCount_aux (cs : List Char) : ∀ n acc,
    List.foldl (fun count ic => if ic.2 = '-' then count else count + pexWeight ic.1)
      acc (List.enumFrom n cs) ≤ acc + pexRemaining n := by
  induction cs with
  | nil => intro n acc; simp [List.enumFrom]
  | cons c cs ih =>
    intro n acc
    have h2 : List.foldl
        (fun count ic => if ic.2 = '-' then count else count + pexWeight ic.1)
        acc (List.enumFrom n (c :: cs)) =
      List.foldl
        (fun count ic => if ic.2 = '-' then count else count + pexWeight ic.1)
        (if c = '-' then acc else acc + pexWeight n)
        (List.enumFrom (n + 1) cs) := rfl
    rw [h2]
    have h1 := ih (n + 1) (if c = '-' then acc else acc + pexWeight n)
    have h3 : (if c = '-' then acc else acc + pexWeight n) + pexRemaining (n + 1)
        ≤ acc + pexRemaining n := by
      simp only [pexWeight, pexRemaining]
      split_ifs <;> first | exact (False.elim (by assumption)) | omega
    exact le_trans h1 h3

/-- Each permission group decodes to at most `4 + 2 + 1`. -/
theorem pexCount_le_seven (cs : List Char) : pexCount cs ≤ 7 := by
  have h := pexCount_aux cs 0 0
  simpa [pexCount, List.enum, pexRemaining] using h

/-- C4: the shell-copy permission decoder is total over every 9-character
string — splitting into three 3-character groups and weighting non-`-`
characters 4/2/1 by position always yields digits in 0..7 — and decodes
`rwxr-xr--` to `(7,5,4)` and `---------` to `(0,0,0)`. -/
theorem C4_pex_decoder :
    (∀ s : String, s.length = 9 →
      (unixPexOf s).1 ≤ 7 ∧ (unixPexOf s).2.1 ≤ 7 ∧ (unixPexOf s).2.2 ≤ 7) ∧
    unixPexOf "rwxr-xr--" = (7, 5, 4) ∧ unixPexOf "---------" = (0, 0, 0) := by
  exact ⟨fun s _ => ⟨pexCount_le_seven _, pexCount_le_seven _, pexCount_le_seven _⟩,
    by decide, by decide⟩

/-- Witness for C4 at the concrete string `rwxr-xr--`. -/
theorem C4_pex_decoder_witness :
    ("rwxr-xr--" : String).length = 9 ∧ (unixPexOf "rwxr-xr--").1 ≤ 7 :=
  ⟨by decide, (C4_pex_decoder.1 "rwxr-xr--" (by decide)).1⟩

/-- C5: for every permission triple with components in 0..7, decoding (as
the native-SFTP `make_fsentry` does) the POSIX mode encoded by `send_file`
recovers the triple. -/
theorem C5_mode_roundtrip :
    ∀ o < 8, ∀ g < 8, ∀ u < 8,
      decodePerm (sendFileMode (some (o, g, u))) = (o, g, u) := by decide

/-- Witness for C5 at the triple `(7, 5, 4)`. -/
theorem C5_mode_roundtrip_witness :
    (7 : Nat) < 8 ∧ decodePerm (sendFileMode (some (7, 5, 4))) = (7, 5, 4) :=
  ⟨by decide, C5_mode_roundtrip 7 (by decide) 5 (by decide) 4 (by decide)⟩

/-- C1 (amended): on a fresh, never-connected backend every interface
operation other than `connect`/`is_connected` fails with
`UninitializedSession`, with two exceptions visible in the code: the
native-SFTP `copy` answers `UnsupportedFeature` without any session check,
and the shell-copy `stat` answers `UnsupportedFeature` whenever the
argument path is a directory on the local machine (its local `is_dir` test
runs before the session check). -/
theorem C1_fresh_ops (senv : ScpEnv) (fenv : SftpEnv) (fuel : Nat)
    (p dst cmd : String) (entry : FsEntry) (f : FsFileT FsEntry) :
    (scp_disconnect senv scpFresh).1 = .err .UninitializedSession ∧
    scp_pwd scpFresh = .err .UninitializedSession ∧
    (scp_change_dir senv scpFresh p).1 = .err .UninitializedSession ∧
    scp_copy senv scpFresh entry dst = .err .UninitializedSession ∧
    scp_list_dir senv fuel scpFresh p = .err .UninitializedSession ∧
    scp_mkdir senv scpFresh p = .err .UninitializedSession ∧
    scp_remove senv scpFresh entry = .err .UninitializedSession ∧
    scp_rename senv scpFresh entry dst = .err .UninitializedSession ∧
    (senv.localIsDir p = false →
      scp_stat senv scpFresh fuel p = .err .UninitializedSession) ∧
    (senv.localIsDir p = true →
      scp_stat senv scpFresh fuel p = .err .UnsupportedFeature) ∧
    scp_exec senv scpFresh cmd = .err .UninitializedSession ∧
    scp_send_file senv scpFresh f dst = .err .UninitializedSession ∧
    scp_recv_file senv scpFresh f = .err .UninitializedSession ∧
    (sftp_disconnect fenv sftpFresh).1 = .err .UninitializedSession ∧
    sftp_pwd sftpFresh = .err .UninitializedSession ∧
    (sftp_change_dir fenv sftpFresh p).1 = .err .UninitializedSession ∧
    sftp_copy sftpFresh entry dst = .err .UnsupportedFeature ∧
    (sftp_list_dir fenv fuel sftpFresh p).1 = .err .UninitializedSession ∧
    (sftp_mkdir fenv sftpFresh p).1 = .err .UninitializedSession ∧
    (sftp_remove fenv sftpFresh fuel entry).1 = .err .UninitializedSession ∧
    sftp_rename fenv sftpFresh entry dst = .err .UninitializedSession ∧
    (sftp_stat fenv sftpFresh fuel p).1 = .err .UninitializedSession ∧
    sftp_exec fenv sftpFresh cmd = .err .UninitializedSession ∧
    sftp_send_file fenv sftpFresh f dst = .err .UninitializedSession ∧
    sftp_recv_file fenv sftpFresh f = .err .UninitializedSession := by
  refine ⟨rfl, rfl, rfl, rfl, rfl, rfl, rfl, rfl, ?_, ?_, rfl, rfl, rfl,
    rfl, rfl, rfl, rfl, rfl, rfl, ?_, rfl, ?_, rfl, rfl, rfl⟩
  · intro h
    rw [scp_stat.eq_def]
    simp [scp_stat_body, scpFresh, h, performShellCmdWithPath, performShellCmd]
  · intro h
    rw [scp_stat.eq_def]
    simp [scp_stat_body, scpFresh, h]
  · rw [sftp_remove.eq_def]
    simp [sftpFresh]
  · rw [sftp_stat.eq_def]
    simp [sftp_stat_body, sftpFresh]

/-- Counterexample for C1 as frozen: the native-SFTP `copy` on the fresh
backend does not yield `UninitializedSession` — it yields
`UnsupportedFeature`. -/
theorem C1_fresh_ops_cex :
    sftp_copy sftpFresh (.file someFile) "/dest.txt" = .err .UnsupportedFeature ∧
    FTErr.UnsupportedFeature ≠ FTErr.UninitializedSession :=
  ⟨rfl, by decide⟩

/-- Witness for C1 at concrete environments, including the local-directory
exception of the shell-copy `stat`. -/
theorem C1_fresh_ops_witness :
    (scp_disconnect c1ScpEnv scpFresh).1 = .err .UninitializedSession ∧
    scp_stat c1ScpEnv scpFresh 0 "/x" = .err .UninitializedSession ∧
    scp_stat c1ScpEnv scpFresh 0 "/tmp" = .err .UnsupportedFeature ∧
    sftp_pwd sftpFresh = .err .UninitializedSession := by
  obtain ⟨h1, -, -, -, -, -, -, -, h9, -⟩ :=
    C1_fresh_ops c1ScpEnv baseSftpEnv 0 "/x" "/d" "echo" (.file someFile)
      someFile
  obtain ⟨-, -, -, -, -, -, -, -, -, h10, -, -, -, -, h15, -⟩ :=
    C1_fresh_ops c1ScpEnv baseSftpEnv 0 "/tmp" "/d" "echo" (.file someFile)
      someFile
  exact ⟨h1, h9 (by decide), h10 (by decide), h15⟩

/-- C9: if the shell-copy `connect` gets through address resolution, TCP
connection, handshake and authentication but the final `pwd` shell command
fails, `connect` returns that error while the session has already been
stored — `is_connected` is `true` afterwards even though `connect`
reported failure. -/
theorem C9_connect_not_atomic (env : ScpEnv) (st : ScpState)
    (addr : String) (port : Nat) (user pass : Option String)
    (addrs : List String)
    (h1 : env.resolveAddrs addr port = some addrs)
    (h2 : (addrs.find? env.tcpOk).isSome)
    (h3 : env.sessionNewOk = true)
    (h4 : env.handshakeOk = true)
    (h5 : (match env.keyResolve addr (user.getD "") with
           | some _ => env.pubkeyAuthOk
           | none => env.passwordAuthOk) = true)
    (h6 : env.shell "pwd" = none) :
    scp_connect env st addr port user pass
      = (.err .ProtocolError, { st with session := true }) ∧
    scp_is_connected (scp_connect env st addr port user pass).2 = true := by
  obtain ⟨a, ha⟩ := Option.isSome_iff_exists.mp h2
  have : scp_connect env st addr port user pass
      = (.err .ProtocolError, { st with session := true }) := by
    simp only [scp_connect, h1, ha, h3, h4, Bool.not_true, Bool.false_eq_true,
      if_false]
    rw [h5]
    simp [performShellCmd, h6]
  exact ⟨this, by rw [this]; rfl⟩

/-- Witness for C9 at a concrete environment whose `pwd` command fails. -/
theorem C9_connect_not_atomic_witness :
    scp_connect c9Env scpFresh "host" 22 (some "demo") (some "password")
      = (.err .ProtocolError, ⟨true, "~"⟩) ∧
    scp_is_connected
      (scp_connect c9Env scpFresh "host" 22 (some "demo") (some "password")).2
      = true :=
  C9_connect_not_atomic c9Env scpFresh "host" 22 (some "demo")
    (some "password") ["10.0.0.1:22"] rfl (by decide) rfl rfl rfl rfl

/-- C10: the native-SFTP entry constructor unconditionally unwraps
`path.file_name()`, so `stat` of any path whose canonical form has no final
component (for example the filesystem root) panics instead of returning an
entry or a typed error. -/
theorem C10_stat_root_panics (env : SftpEnv) (fuel : Nat) (st : SftpState)
    (p q : String) (m : FileStat)
    (hs : st.sftp = true)
    (hr : env.realpath (if startsSlash p then p else pushPath st.wrkdir p)
      = some q)
    (hm : env.statMeta q = some m)
    (hf : fileName q = none) :
    (sftp_stat env st fuel p).1 = .panic := by
  rw [sftp_stat.eq_def]
  simp only [sftp_stat_body, hs, if_true, get_remote_path, hr, hm]
  simp [make_core, hf]

/-- Witness for C10: stat of `/` on a server whose canonicalization and
metadata calls succeed. -/
theorem C10_stat_root_panics_witness :
    (sftp_stat c10Env sftpConn 0 "/").1 = .panic :=
  C10_stat_root_panics c10Env 0 sftpConn "/" "/" dirMeta rfl rfl rfl
    (by decide)

/-- C3: for the connected shell-copy backend, once the synthesized
`cd <target>; echo $?; pwd` command's output has been captured, a trimmed
output starting with `0` makes `change_dir` succeed with the remainder
after the leading `0` (trimmed) as the new working directory, and any
other leading character makes it fail with `NoSuchFileOrDirectory` — never
any other kind. -/
theorem C3_change_dir (env : ScpEnv) (st : ScpState) (dir out : String)
    (hs : st.session = true)
    (hcap : env.shell ("cd \"" ++ st.wrkdir ++ "\"; " ++
      ("cd \"" ++ (if startsSlash dir then dir else pushPath "." dir) ++
        "\"; echo $?; pwd")) = some out) :
    (startsWithC (trimS out) '0' = true →
      scp_change_dir env st dir =
        (.ok (trimS (dropOne (trimS out))),
         { st with wrkdir := trimS (dropOne (trimS out)) })) ∧
    (startsWithC (trimS out) '0' = false →
      scp_change_dir env st dir = (.err .NoSuchFileOrDirectory, st)) := by
  constructor <;> intro h <;>
    simp only [scp_change_dir, performShellCmdWithPath, performShellCmd, hs,
      if_true, hcap, h, Bool.true_eq_false, Bool.false_eq_true, if_false]

/-- Witness for C3: a server answering `0/home` moves the cursor to
`/home`; a server answering `1` yields `NoSuchFileOrDirectory`. -/
theorem C3_change_dir_witness :
    scp_change_dir c3Env scpConn "pub" = (.ok "/home", ⟨true, "/home"⟩) ∧
    scp_change_dir c3EnvBad scpConn "pub"
      = (.err .NoSuchFileOrDirectory, scpConn) := by
  have h1 := (C3_change_dir c3Env scpConn "pub" "0/home" rfl rfl).1 (by decide)
  have h2 := (C3_change_dir c3EnvBad scpConn "pub" "1" rfl rfl).2 (by decide)
  exact ⟨h1, h2⟩

/-- The path-resolution calls of `get_remote_path` are read-only. -/
theorem grp_trace_read (env : SftpEnv) (st : SftpState) (p : String) :
    ∀ x ∈ (get_remote_path env st p).2, x.isRead = true := by
  intro x hx
  simp only [get_remote_path] at hx
  rcases h1 : env.realpath
      (if startsSlash p = true then p else pushPath st.wrkdir p) with - | q <;>
    (rw [h1] at hx; try dsimp only at hx)
  · simp at hx
    simp [hx, SPrim.isRead]
  · rcases h2 : env.statMeta q with - | m <;> rw [h2] at hx <;>
      · simp at hx
        rcases hx with h | h <;> simp [h, SPrim.isRead]

/-- The calls issued by `make_core` are read-only whenever the given
target-stat function only issues read-only calls. -/
theorem make_core_trace_read (env : SftpEnv)
    (statF : String → Outcome FsEntry × List SPrim)
    (hstat : ∀ p, ∀ x ∈ (statF p).2, x.isRead = true)
    (path : String) (m : FileStat) :
    ∀ x ∈ (make_core env statF path m).2, x.isRead = true := by
  intro x hx
  unfold make_core at hx
  rcases h1 : fileName path with - | fn <;> rw [h1] at hx <;> try dsimp only at hx
  · simp at hx
  · by_cases h2 : m.isSymlinkS = true
    · rw [if_pos h2] at hx
      rcases h3 : env.readlink path with - | p2 <;> rw [h3] at hx <;> try dsimp only at hx
      · simp at hx
        simp [hx, SPrim.isRead]
      · rcases h4 : statF p2 with ⟨r, t⟩
        rw [h4] at hx <;> try dsimp only at hx
        have ht : ∀ x ∈ t, x.isRead = true := by
          have := hstat p2
          rw [h4] at this
          exact this
        cases r <;>
          · simp at hx
            rcases hx with h | h
            · simp [h, SPrim.isRead]
            · exact ht x h
    · rw [if_neg h2] at hx
      simp at hx

/-- The calls issued by the body of `stat` are read-only whenever the given
target-stat function only issues read-only calls. -/
theorem stat_body_trace_read (env : SftpEnv) (st : SftpState)
    (statF : String → Outcome FsEntry × List SPrim)
    (hstat : ∀ p, ∀ x ∈ (statF p).2, x.isRead = true) (p : String) :
    ∀ x ∈ (sftp_stat_body env st statF p).2, x.isRead = true := by
  intro x hx
  unfold sftp_stat_body at hx
  by_cases hs : st.sftp = true
  · rw [if_pos hs] at hx
    rcases hg : get_remote_path env st p with ⟨rg, tg⟩
    rw [hg] at hx <;> try dsimp only at hx
    have htg : ∀ x ∈ tg, x.isRead = true := by
      have := grp_trace_read env st p
      rw [hg] at this
      exact this
    cases rg with
    | ok dir =>
      dsimp only at hx
      rcases hm : env.statMeta dir with - | metadata <;> rw [hm] at hx <;>
        try dsimp only at hx
      · simp at hx
        rcases hx with h | h
        · exact htg x h
        · simp [h, SPrim.isRead]
      · have ht' := make_core_trace_read env statF hstat dir metadata
        simp at hx
        rcases hx with h | h | h
        · exact htg x h
        · simp [h, SPrim.isRead]
        · exact ht' x h
    | err e => dsimp only at hx; exact htg x hx
    | panic => dsimp only at hx; exact htg x hx
    | spin => dsimp only at hx; exact htg x hx
  · rw [if_neg hs] at hx
    simp at hx

/-- The calls issued by `sftp_stat` are read-only, at any recursion
budget. -/
theorem stat_trace_read (env : SftpEnv) (st : SftpState) :
    ∀ fuel p, ∀ x ∈ (sftp_stat env st fuel p).2, x.isRead = true := by
  intro fuel
  induction fuel with
  | zero =>
    intro p
    rw [sftp_stat.eq_def]
    exact stat_body_trace_read env st _
      (fun p2 x hx => absurd hx (List.not_mem_nil x)) p
  | succ n ih =>
    intro p
    rw [sftp_stat.eq_def]
    exact stat_body_trace_read env st _ (fun p2 => ih p2) p

/-- The calls issued by `make_fsentry` are read-only, at any recursion
budget. -/
theorem make_fsentry_trace_read (env : SftpEnv) (st : SftpState)
    (fuel : Nat) (p : String) (m : FileStat) :
    ∀ x ∈ (make_fsentry env fuel st p m).2, x.isRead = true := by
  unfold make_fsentry
  cases fuel with
  | zero =>
    exact make_core_trace_read env _
      (fun p2 x hx => absurd hx (List.not_mem_nil x)) p m
  | succ n =>
    exact make_core_trace_read env _
      (fun p2 => stat_trace_read env st n p2) p m

/-- The calls issued by the entry loop of `list_dir` are read-only. -/
theorem makeEntries_trace_read (env : SftpEnv) (st : SftpState)
    (fuel : Nat) :
    ∀ files, ∀ x ∈ (makeEntries env fuel st files).2, x.isRead = true := by
  intro files
  induction files with
  | nil => simp [makeEntries]
  | cons pm rest ih =>
    intro x hx
    rcases pm with ⟨p, m⟩
    unfold makeEntries at hx
    rcases h1 : make_fsentry env fuel st p m with ⟨r, t⟩
    rw [h1] at hx <;> try dsimp only at hx
    have ht : ∀ x ∈ t, x.isRead = true := by
      have := make_fsentry_trace_read env st fuel p m
      rw [h1] at this
      exact this
    cases r with
    | ok e =>
      dsimp only at hx
      have ht' := ih
      rcases h2 : makeEntries env fuel st rest with ⟨r', t'⟩
      rw [h2] at hx <;> try dsimp only at hx
      rw [h2] at ht'
      cases r' <;>
        · simp at hx
          rcases hx with h | h
          · exact ht x h
          · exact ht' x h
    | err e => dsimp only at hx; exact ht x hx
    | panic => dsimp only at hx; exact ht x hx
    | spin => dsimp only at hx; exact ht x hx

/-- The calls issued by `sftp_list_dir` are read-only: listing a directory
never removes anything. -/
theorem list_dir_trace_read (env : SftpEnv) (st : SftpState) (fuel : Nat)
    (p : String) :
    ∀ x ∈ (sftp_list_dir env fuel st p).2, x.isRead = true := by
  intro x hx
  unfold sftp_list_dir at hx
  by_cases hs : st.sftp = true
  · rw [if_pos hs] at hx
    rcases hg : get_remote_path env st p with ⟨rg, tg⟩
    rw [hg] at hx <;> try dsimp only at hx
    have htg : ∀ x ∈ tg, x.isRead = true := by
      have := grp_trace_read env st p
      rw [hg] at this
      exact this
    cases rg with
    | ok dir =>
      dsimp only at hx
      rcases hr : env.readdir dir with - | files <;> rw [hr] at hx <;>
        try dsimp only at hx
      · simp at hx
        rcases hx with h | h
        · exact htg x h
        · simp [h, SPrim.isRead]
      · have ht' := makeEntries_trace_read env st fuel files
        simp at hx
        rcases hx with h | h | h
        · exact htg x h
        · simp [h, SPrim.isRead]
        · exact ht' x h
    | err e => dsimp only at hx; exact htg x hx
    | panic => dsimp only at hx; exact htg x hx
    | spin => dsimp only at hx; exact htg x hx
  · rw [if_neg hs] at hx
    simp at hx

/-- Unfolding of `remove` on a directory entry in the connected state:
list the children, remove them in order, and only then `rmdir`. -/
theorem sftp_remove_dir_eq (env : SftpEnv) (st : SftpState) (fuel : Nat)
    (d : FsDirT FsEntry) (hs : st.sftp = true) :
    sftp_remove env st (fuel + 1) (.directory d) =
      match sftp_list_dir env fuel st d.abs_path with
      | (.ok children, t) =>
        match sftp_remove_list env fuel st children with
        | (.ok (), t') =>
          if env.rmdirOk d.abs_path then
            (.ok (), t ++ t' ++ [.rmdirQ d.abs_path])
          else (.err .PexError, t ++ t' ++ [.rmdirQ d.abs_path])
        | (r, t') => (r, t ++ t')
      | (.err e, t) => (.err e, t)
      | (.panic, t) => (.panic, t)
      | (.spin, t) => (.spin, t) := by
  rw [sftp_remove.eq_def, if_pos hs]
  rfl

/-- The child loop never issues a remove-directory call when every child is
a file (each file child costs exactly one `unlink`). -/
theorem removeList_files_no_rmdir (env : SftpEnv) (st : SftpState)
    (fuel : Nat) : ∀ children, (∀ c ∈ children, c.isDirE = false) →
    ∀ q, SPrim.rmdirQ q ∉ (sftp_remove_list env fuel st children).2 := by
  intro children
  induction children with
  | nil =>
    intro _ q
    simp [sftp_remove_list, removeEach]
  | cons c rest ih =>
    intro hall q
    have hc : c.isDirE = false := hall c (by simp)
    cases c with
    | directory d => simp [FsEntry.isDirE] at hc
    | file f =>
      have hrest := ih (fun c hmem => hall c (by simp [hmem])) q
      intro hmem
      unfold sftp_remove_list removeEach at hmem
      rw [sftp_remove.eq_def] at hmem
      by_cases hs : st.sftp = true
      · rw [if_pos hs] at hmem
        dsimp only at hmem
        by_cases hu : env.unlinkOk f.abs_path = true
        · rw [if_pos hu] at hmem
          dsimp only at hmem
          rcases hr : removeEach (sftp_remove env st fuel) rest with ⟨r', t'⟩
          rw [hr] at hmem
          dsimp only at hmem
          simp at hmem
          unfold sftp_remove_list at hrest
          rw [hr] at hrest
          exact hrest hmem
        · rw [if_neg hu] at hmem
          dsimp only at hmem
          simp at hmem
      · rw [if_neg hs] at hmem
        dsimp only at hmem
        simp at hmem

/-- C2: for the connected native-SFTP backend, `remove` on a directory
first lists the direct children, removes each child in listed order, and
only after every child removal succeeded issues the remove-directory call
(which then terminates the call trace); if a child removal fails, `remove`
returns that child's error immediately and the directory's own
remove-directory call is never issued. -/
theorem C2_sftp_remove_recursive :
    (∀ (env : SftpEnv) (st : SftpState) (fuel : Nat) (d : FsDirT FsEntry),
      st.sftp = true →
      ((sftp_remove env st (fuel + 1) (.directory d)).1 = .ok () →
        ∃ children tl tc,
          sftp_list_dir env fuel st d.abs_path = (.ok children, tl) ∧
          sftp_remove_list env fuel st children = (.ok (), tc) ∧
          env.rmdirOk d.abs_path = true ∧
          sftp_remove env st (fuel + 1) (.directory d)
            = (.ok (), tl ++ tc ++ [.rmdirQ d.abs_path])) ∧
      (∀ children tl e tc,
        sftp_list_dir env fuel st d.abs_path = (.ok children, tl) →
        sftp_remove_list env fuel st children = (.err e, tc) →
        sftp_remove env st (fuel + 1) (.directory d) = (.err e, tl ++ tc) ∧
        ((∀ c ∈ children, c.isDirE = false) →
          SPrim.rmdirQ d.abs_path ∉ tl ++ tc))) ∧
    (∀ (env : SftpEnv) (st : SftpState) (fuel : Nat) (entry : FsEntry)
        (rest : List FsEntry) (t : List SPrim),
      (sftp_remove env st fuel entry = (.ok (), t) →
        sftp_remove_list env fuel st (entry :: rest)
          = ((sftp_remove_list env fuel st rest).1,
             t ++ (sftp_remove_list env fuel st rest).2)) ∧
      (∀ e, sftp_remove env st fuel entry = (.err e, t) →
        sftp_remove_list env fuel st (entry :: rest) = (.err e, t))) := by
  constructor
  · intro env st fuel d hs
    constructor
    · intro hok
      rw [sftp_remove_dir_eq env st fuel d hs] at hok
      rcases hl : sftp_list_dir env fuel st d.abs_path with ⟨rl, tl⟩
      rw [hl] at hok
      cases rl with
      | ok children =>
        dsimp only at hok
        rcases hr : sftp_remove_list env fuel st children with ⟨rr, tc⟩
        rw [hr] at hok
        cases rr with
        | ok u =>
          cases u
          dsimp only at hok
          by_cases hrm : env.rmdirOk d.abs_path = true
          · refine ⟨children, tl, tc, rfl, hr, hrm, ?_⟩
            rw [sftp_remove_dir_eq env st fuel d hs, hl]
            dsimp only
            rw [hr]
            dsimp only
            rw [if_pos hrm]
          · rw [if_neg hrm] at hok
            simp at hok
        | err e => dsimp only at hok; simp at hok
        | panic => dsimp only at hok; simp at hok
        | spin => dsimp only at hok; simp at hok
      | err e => dsimp only at hok; simp at hok
      | panic => dsimp only at hok; simp at hok
      | spin => dsimp only at hok; simp at hok
    · intro children tl e tc hl hr
      constructor
      · rw [sftp_remove_dir_eq env st fuel d hs, hl]
        dsimp only
        rw [hr]
      · intro hfiles
        have h1 : ∀ x ∈ tl, x.isRead = true := by
          have := list_dir_trace_read env st fuel d.abs_path
          rw [hl] at this
          exact this
        have h2 := removeList_files_no_rmdir env st fuel children hfiles
          d.abs_path
        rw [hr] at h2
        intro hmem
        simp at hmem
        rcases hmem with h | h
        · have := h1 _ h
          simp [SPrim.isRead] at this
        · exact h2 h
  · intro env st fuel entry rest t
    constructor
    · intro h
      simp [sftp_remove_list, removeEach, h]
    · intro e h
      simp [sftp_remove_list, removeEach, h]

/-- Witness for C2 on a concrete two-file directory: with `/d/b` refusing
to be unlinked, `remove` aborts with the child's error and never issues
`rmdir /d`; with all unlinks succeeding, the trace ends with `rmdir /d`. -/
theorem C2_sftp_remove_recursive_witness :
    sftp_remove c2Env sftpConn 1 (.directory dEntry)
      = (.err .PexError,
         [.realpathQ "/d", .statQ "/d", .readdirQ "/d"]
           ++ [.unlinkQ "/d/a", .unlinkQ "/d/b"]) ∧
    SPrim.rmdirQ "/d" ∉
      ([.realpathQ "/d", .statQ "/d", .readdirQ "/d"]
        ++ [SPrim.unlinkQ "/d/a", SPrim.unlinkQ "/d/b"]) ∧
    (∃ children tl tc,
      sftp_list_dir c2EnvOk 0 sftpConn "/d" = (.ok children, tl) ∧
      sftp_remove_list c2EnvOk 0 sftpConn children = (.ok (), tc) ∧
      c2EnvOk.rmdirOk "/d" = true ∧
      sftp_remove c2EnvOk sftpConn 1 (.directory dEntry)
        = (.ok (), tl ++ tc ++ [.rmdirQ "/d"])) := by
  have hb := (C2_sftp_remove_recursive.1 c2Env sftpConn 0 dEntry rfl).2
    [.file ⟨"a", "/d/a", 7, 5, 0, 3, none, false, none, some 0, some 0,
      some (6, 4, 4)⟩,
     .file ⟨"b", "/d/b", 7, 5, 0, 3, none, false, none, some 0, some 0,
      some (6, 4, 4)⟩]
    [.realpathQ "/d", .statQ "/d", .readdirQ "/d"] .PexError
    [.unlinkQ "/d/a", .unlinkQ "/d/b"] rfl rfl
  exact ⟨hb.1, hb.2 (by decide),
    (C2_sftp_remove_recursive.1 c2EnvOk sftpConn 0 dEntry rfl).1 rfl⟩

/-- C7 counterexample: a symlink line whose target's final component equals
the link's own name (`foo -> /bar/foo`), on a machine where the local
`is_dir` check answers true.  No stat of the target is performed and the
symlink field stays `None` — yet the entry IS reported as a Directory, so
the Directory decision is not made by the extra stat, contradicting the
claim that the target is stat'ed (only when names differ) "both to populate
the symlink field and to decide whether the link is reported as a
Directory". -/
theorem C7_symlink_resolution_cex :
    (fileName "/bar/foo").getD "" = "foo" ∧
    (parse_ls_output c7Env 1 scpConn "/p" c7Line).2.1 = [] ∧
    (parse_ls_output c7Env 1 scpConn "/p" c7Line).1.entrySymlink = some none ∧
    (parse_ls_output c7Env 1 scpConn "/p" c7Line).1.entryIsDir = some true :=
  ⟨rfl, rfl, rfl, rfl⟩

/-- C7 (amended): for every line whose type flag is `l`, the filename token
is split into (name, target); whenever a target is present the local
`Path::is_dir` query on the target — not any stat — decides the
Directory/File tag, in the name-equal and name-different cases alike; when
the target's final component equals the name, no stat is performed and the
symlink field is None; when it differs, the target is stat'ed exactly once,
solely to populate the symlink field (Ok → Some, Err → None). -/
theorem C7_symlink_resolution (env : ScpEnv) (fuel : Nat) (st : ScpState)
    (path line : String) (tok : LsTok) (file_name tgt : String)
    (hm : lsMatch line.toList = some tok) (hf : tok.flag = 'l')
    (hg : get_name_and_link (String.mk tok.nameTok) = (file_name, some tgt))
    (hn : ¬(file_name = "." ∨ file_name = "..")) :
    (parse_ls_output env (fuel + 1) st path line).2.2 = [tgt] ∧
    ((fileName tgt).getD "" = file_name →
      (parse_ls_output env (fuel + 1) st path line).2.1 = [] ∧
      (parse_ls_output env (fuel + 1) st path line).1 =
        .ok (mkScpEntry path file_name (env.localIsDir tgt) none
          ((env.parseLstime (String.mk tok.timeTok)).getD 0)
          (parseUsize (String.mk tok.sizeTok)) (parseU32 (String.mk tok.uid))
          (parseU32 (String.mk tok.gid)) (unixPexOf (String.mk tok.pexs)))) ∧
    ((fileName tgt).getD "" ≠ file_name →
      (parse_ls_output env (fuel + 1) st path line).2.1 = [tgt] ∧
      (∀ e, scp_stat env st fuel tgt = .ok e →
        (parse_ls_output env (fuel + 1) st path line).1 =
          .ok (mkScpEntry path file_name (env.localIsDir tgt) (some e)
            ((env.parseLstime (String.mk tok.timeTok)).getD 0)
            (parseUsize (String.mk tok.sizeTok))
            (parseU32 (String.mk tok.uid)) (parseU32 (String.mk tok.gid))
            (unixPexOf (String.mk tok.pexs)))) ∧
      (∀ er, scp_stat env st fuel tgt = .err er →
        (parse_ls_output env (fuel + 1) st path line).1 =
          .ok (mkScpEntry path file_name (env.localIsDir tgt) none
            ((env.parseLstime (String.mk tok.timeTok)).getD 0)
            (parseUsize (String.mk tok.sizeTok))
            (parseU32 (String.mk tok.uid)) (parseU32 (String.mk tok.gid))
            (unixPexOf (String.mk tok.pexs))))) := by
  have hcond : tok.flag = '-' ∨ tok.flag = 'l' ∨ tok.flag = 'd' :=
    Or.inr (Or.inl hf)
  have hchar : parse_ls_output env (fuel + 1) st path line =
      (if (fileName tgt).getD "" = file_name then
        (.ok (mkScpEntry path file_name (env.localIsDir tgt) none
          ((env.parseLstime (String.mk tok.timeTok)).getD 0)
          (parseUsize (String.mk tok.sizeTok)) (parseU32 (String.mk tok.uid))
          (parseU32 (String.mk tok.gid)) (unixPexOf (String.mk tok.pexs))),
         [], [tgt])
      else
        match scp_stat env st fuel tgt with
        | .spin => (.spin, [tgt], [tgt])
        | .panic => (.panic, [tgt], [tgt])
        | .ok e =>
          (.ok (mkScpEntry path file_name (env.localIsDir tgt) (some e)
            ((env.parseLstime (String.mk tok.timeTok)).getD 0)
            (parseUsize (String.mk tok.sizeTok))
            (parseU32 (String.mk tok.uid)) (parseU32 (String.mk tok.gid))
            (unixPexOf (String.mk tok.pexs))), [tgt], [tgt])
        | .err _ =>
          (.ok (mkScpEntry path file_name (env.localIsDir tgt) none
            ((env.parseLstime (String.mk tok.timeTok)).getD 0)
            (parseUsize (String.mk tok.sizeTok))
            (parseU32 (String.mk tok.uid)) (parseU32 (String.mk tok.gid))
            (unixPexOf (String.mk tok.pexs))), [tgt], [tgt])) := by
    unfold parse_ls_output parse_core
    rw [hm]
    dsimp only
    rw [if_pos hcond]
    rw [if_pos hf, hg]
    dsimp only
    by_cases he : (fileName tgt).getD "" = file_name
    · rw [if_pos he, if_neg hn, if_pos he]
    · rw [if_neg he, if_neg he]
      rcases hs2 : scp_stat env st fuel tgt with e | er
      · dsimp only
        rw [if_neg hn]
      · dsimp only
        rw [if_neg hn]
      · rfl
      · rfl
  refine ⟨?_, ?_, ?_⟩
  · rw [hchar]
    by_cases he : (fileName tgt).getD "" = file_name
    · rw [if_pos he]
    · rw [if_neg he]
      rcases hs2 : scp_stat env st fuel tgt with e | er
      · rfl
      · rfl
      · rfl
      · rfl
  · intro he
    rw [hchar, if_pos he]
    exact ⟨rfl, rfl⟩
  · intro he
    refine ⟨?_, ?_, ?_⟩
    · rw [hchar, if_neg he]
      rcases hs2 : scp_stat env st fuel tgt with e | er
      · rfl
      · rfl
      · rfl
      · rfl
    · intro e hse
      rw [hchar, if_neg he, hse]
    · intro er hse
      rw [hchar, if_neg he, hse]

/-- Witness for the amended C7 at a concrete name-equal instance: the
local is_dir query is issued on the target, no stat happens, and the
entry is built with `is_dir = localIsDir target` and symlink `none`. -/
theorem C7_symlink_resolution_witness :
    (parse_ls_output c7Env 1 scpConn "/p" c7Line).2.2 = ["/bar/foo"] ∧
    (parse_ls_output c7Env 1 scpConn "/p" c7Line).2.1 = [] ∧
    (parse_ls_output c7Env 1 scpConn "/p" c7Line).1 =
      .ok (mkScpEntry "/p" "foo" (c7Env.localIsDir "/bar/foo") none
        ((c7Env.parseLstime "Jan 1 12:00").getD 0) (parseUsize "3")
        (parseU32 "u") (parseU32 "u") (unixPexOf "rwxrwxrwx")) := by
  have h := C7_symlink_resolution c7Env 0 scpConn "/p" c7Line
    ⟨'l', "rwxrwxrwx".toList, "1".toList, "u".toList, "u".toList,
      "3".toList, "Jan 1 12:00".toList, "foo -> /bar/foo".toList⟩
    "foo" "/bar/foo" rfl rfl rfl (by decide)
  exact ⟨h.1, (h.2.1 (by decide)).1, (h.2.1 (by decide)).2⟩

/-- `splitOnC` always yields at least one piece. -/
theorem splitOnC_ne_nil (sep : Char) (l : List Char) : splitOnC sep l ≠ [] := by
  cases l with
  | nil => simp [splitOnC]
  | cons c rest =>
    unfold splitOnC
    by_cases hc : c = sep
    · simp [hc]
    · rw [if_neg hc]
      rcases h : splitOnC sep rest with _ | ⟨s, ss⟩ <;> simp

/-- Splitting distributes over an occurrence of the separator. -/
theorem splitOnC_append (sep : Char) (xs ys : List Char) :
    splitOnC sep (xs ++ sep :: ys) = splitOnC sep xs ++ splitOnC sep ys := by
  induction xs with
  | nil => simp [splitOnC]
  | cons c rest ih =>
    simp only [List.cons_append, splitOnC]
    by_cases hc : c = sep
    · simp [hc, ih]
    · simp only [if_neg hc]
      have hne := splitOnC_ne_nil sep rest
      rcases h : splitOnC sep rest with _ | ⟨s, ss⟩
      · exact absurd h hne
      · simp only [List.append_eq]
        rw [ih, h]
        simp

/-- A separator-free list splits into itself. -/
theorem splitOnC_single (sep : Char) (l : List Char)
    (h : ∀ x ∈ l, ¬ x = sep) : splitOnC sep l = [l] := by
  induction l with
  | nil => rfl
  | cons c rest ih =>
    simp only [splitOnC]
    rw [if_neg (h c (by simp))]
    rw [ih (fun x hx => h x (by simp [hx]))]

/-- A string without `/` has no `/` among its characters. -/
theorem containsSlash_false (s : String) (h : containsSlash s = false) :
    ∀ x ∈ s.toList, ¬ x = '/' := by
  unfold containsSlash at h
  simp at h
  intro x hx he
  subst he
  exact h hx

/-- Path components distribute over a `/`. -/
theorem segsOf_append (xs ys : List Char) :
    segsOf (xs ++ '/' :: ys) = segsOf xs ++ segsOf ys := by
  unfold segsOf splitChar
  rw [splitOnC_append, List.filter_append]

/-- A nonempty slash-free list other than `.` is its own single
component. -/
theorem segsOf_single (l : List Char) (hne : l ≠ []) (hdot : l ≠ ['.'])
    (hsl : ∀ x ∈ l, ¬ x = '/') : segsOf l = [l] := by
  unfold segsOf splitChar
  rw [splitOnC_single _ _ hsl]
  simp [List.filter_cons, hne, hdot]

/-- Pushing a nonempty, slash-free name other than `.`/`..` onto any base
path makes it the final component. -/
theorem fileName_pushPath (base fn : String) (hne : fn ≠ "")
    (hsl : containsSlash fn = false) (hd1 : fn ≠ ".") (hd2 : fn ≠ "..") :
    fileName (pushPath base fn) = some fn := by
  have hsl2 : ∀ x ∈ fn.toList, ¬ x = '/' := containsSlash_false fn hsl
  have hlne : fn.toList ≠ [] := by
    intro h
    exact hne (String.ext h)
  have hld1 : fn.toList ≠ ['.'] := by
    intro h
    exact hd1 (String.ext h)
  have hld2 : fn.toList ≠ ['.', '.'] := by
    intro h
    exact hd2 (String.ext h)
  have hseg : segsOf fn.toList = [fn.toList] := segsOf_single _ hlne hld1 hsl2
  unfold pushPath
  by_cases ha : startsSlash fn = true
  · exfalso
    unfold startsSlash at ha
    have ha2 : fn.toList.head? = some '/' := of_decide_eq_true ha
    rcases hl : fn.toList with _ | ⟨c, cs⟩ <;> rw [hl] at ha2
    · simp at ha2
    · simp at ha2
      exact hsl2 c (by rw [hl]; simp) ha2
  · rw [if_neg ha]
    by_cases hb : base = ""
    · rw [if_pos hb]
      unfold fileName
      rw [hseg, List.getLast?_singleton]
      dsimp only
      rw [if_neg hld2]
      rfl
    · rw [if_neg hb]
      by_cases hc : endsSlash base = true
      · rw [if_pos hc]
        have hbl : base.toList ≠ [] := by
          intro h
          unfold endsSlash at hc
          rw [h] at hc
          simp at hc
        have hc2 : base.toList.getLast? = some '/' := by
          unfold endsSlash at hc
          exact of_decide_eq_true hc
        have h2 : base.toList.getLast hbl = '/' := by
          rw [List.getLast?_eq_getLast _ hbl] at hc2
          exact Option.some_injective _ hc2
        have hdecomp : base.toList = base.toList.dropLast ++ ['/'] := by
          conv_lhs => rw [← List.dropLast_append_getLast hbl]
          rw [h2]
        have hT : (base ++ fn).toList
            = base.toList.dropLast ++ '/' :: fn.toList := by
          show (base ++ fn).data = base.toList.dropLast ++ '/' :: fn.data
          rw [String.data_append]
          conv_lhs =>
            rw [show base.data = base.toList.dropLast ++ ['/'] from hdecomp]
          simp
        unfold fileName
        rw [hT, segsOf_append, hseg, List.getLast?_concat]
        dsimp only
        rw [if_neg hld2]
        rfl
      · rw [if_neg hc]
        have hT : (base ++ "/" ++ fn).toList
            = base.toList ++ '/' :: fn.toList := by
          show (base ++ "/" ++ fn).data = base.toList ++ '/' :: fn.data
          rw [String.data_append, String.data_append]
          simp [show ("/" : String).data = ['/'] from rfl]
        unfold fileName
        rw [hT, segsOf_append, hseg, List.getLast?_concat]
        dsimp only
        rw [if_neg hld2]
        rfl

/-- The name stored by the shell-copy entry constructor. -/
theorem mkScpEntry_get_name (path fn : String) (d : Bool)
    (sym : Option FsEntry) (mt fs : Nat) (u g : Option Nat)
    (px : Nat × Nat × Nat) :
    (mkScpEntry path fn d sym mt fs u g px).get_name = fn := by
  unfold mkScpEntry
  by_cases h : d = true <;> simp [h, FsEntry.get_name]

/-- The absolute path stored by the shell-copy entry constructor. -/
theorem mkScpEntry_get_abs (path fn : String) (d : Bool)
    (sym : Option FsEntry) (mt fs : Nat) (u g : Option Nat)
    (px : Nat × Nat × Nat) :
    (mkScpEntry path fn d sym mt fs u g px).get_abs_path
      = pushPath path fn := by
  unfold mkScpEntry
  by_cases h : d = true <;> simp [h, FsEntry.get_abs_path]

/-- The name stored by the native-SFTP entry constructor. -/
theorem mkSftpEntry_get_name (path fn : String) (m : FileStat)
    (sym : Option FsEntry) : (mkSftpEntry path fn m sym).get_name = fn := by
  unfold mkSftpEntry
  by_cases h : m.isDirS = true <;> simp [h, FsEntry.get_name]

/-- The absolute path stored by the native-SFTP entry constructor. -/
theorem mkSftpEntry_get_abs (path fn : String) (m : FileStat)
    (sym : Option FsEntry) : (mkSftpEntry path fn m sym).get_abs_path = path := by
  unfold mkSftpEntry
  by_cases h : m.isDirS = true <;> simp [h, FsEntry.get_abs_path]

/-- Every successful arm of the parser returns a `mkScpEntry` whose name
passed the dot test; its fields therefore satisfy the naming equations. -/
theorem scpEntry_ok_extract (path fn : String) (d : Bool)
    (sym : Option FsEntry) (mt fs : Nat) (u g : Option Nat)
    (px : Nat × Nat × Nat) (e : FsEntry)
    (h1 : mkScpEntry path fn d sym mt fs u g px = e)
    (hdot : ¬(fn = "." ∨ fn = "..")) :
    ¬(e.get_name = "." ∨ e.get_name = "..") ∧
    e.get_abs_path = pushPath path e.get_name := by
  rw [← h1, mkScpEntry_get_name, mkScpEntry_get_abs]
  exact ⟨hdot, rfl⟩

/-- A successful parse yields an entry whose name is neither `.` nor `..`
and whose absolute path is the listing path with the name pushed. -/
theorem parse_core_ok_name (env : ScpEnv) (statF : String → Outcome FsEntry)
    (path line : String) (e : FsEntry) (ds dq : List String)
    (h : parse_core env statF path line = (.ok e, ds, dq)) :
    ¬(e.get_name = "." ∨ e.get_name = "..") ∧
    e.get_abs_path = pushPath path e.get_name := by
  unfold parse_core at h
  rcases hm : lsMatch line.toList with _ | tok <;> rw [hm] at h
  · simp at h
  · try dsimp only at h
    by_cases hcond : tok.flag = '-' ∨ tok.flag = 'l' ∨ tok.flag = 'd'
    · rw [if_pos hcond] at h
      try dsimp only at h
      by_cases hl : tok.flag = 'l'
      · rw [if_pos hl] at h
        rcases hg : get_name_and_link (String.mk tok.nameTok) with ⟨fn, tgtO⟩
        rw [hg] at h
        rcases tgtO with _ | tgt
        · try dsimp only at h
          by_cases hdot : fn = "." ∨ fn = ".."
          · rw [if_pos hdot] at h
            simp at h
          · rw [if_neg hdot] at h
            simp only [Prod.mk.injEq, ParseRes.ok.injEq] at h
            exact scpEntry_ok_extract _ _ _ _ _ _ _ _ _ _ h.1 hdot
        · try dsimp only at h
          by_cases he : (fileName tgt).getD "" = fn
          · rw [if_pos he] at h
            by_cases hdot : fn = "." ∨ fn = ".."
            · rw [if_pos hdot] at h
              simp at h
            · rw [if_neg hdot] at h
              simp only [Prod.mk.injEq, ParseRes.ok.injEq] at h
              exact scpEntry_ok_extract _ _ _ _ _ _ _ _ _ _ h.1 hdot
          · rw [if_neg he] at h
            rcases hst : statF tgt with e2 | er <;> rw [hst] at h <;>
              try dsimp only at h
            · by_cases hdot : fn = "." ∨ fn = ".."
              · rw [if_pos hdot] at h
                simp at h
              · rw [if_neg hdot] at h
                simp only [Prod.mk.injEq, ParseRes.ok.injEq] at h
                exact scpEntry_ok_extract _ _ _ _ _ _ _ _ _ _ h.1 hdot
            · by_cases hdot : fn = "." ∨ fn = ".."
              · rw [if_pos hdot] at h
                simp at h
              · rw [if_neg hdot] at h
                simp only [Prod.mk.injEq, ParseRes.ok.injEq] at h
                exact scpEntry_ok_extract _ _ _ _ _ _ _ _ _ _ h.1 hdot
            · simp at h
            · simp at h
      · rw [if_neg hl] at h
        try dsimp only at h
        by_cases hdot : String.mk tok.nameTok = "."
            ∨ String.mk tok.nameTok = ".."
        · rw [if_pos hdot] at h
          simp at h
        · rw [if_neg hdot] at h
          simp only [Prod.mk.injEq, ParseRes.ok.injEq] at h
          exact scpEntry_ok_extract _ _ _ _ _ _ _ _ _ _ h.1 hdot
    · rw [if_neg hcond] at h
      simp at h

/-- A successful entry construction stores the path itself as `abs_path`
and its final component as `name`. -/
theorem make_core_ok_name (env : SftpEnv)
    (statF : String → Outcome FsEntry × List SPrim) (path : String)
    (m : FileStat) (e : FsEntry) (tr : List SPrim)
    (h : make_core env statF path m = (.ok e, tr)) :
    fileName path = some e.get_name ∧ e.get_abs_path = path := by
  unfold make_core at h
  rcases hf : fileName path with _ | fn <;> rw [hf] at h
  · simp at h
  · try dsimp only at h
    by_cases hs : m.isSymlinkS = true
    · rw [if_pos hs] at h
      rcases hr : env.readlink path with _ | p2 <;> rw [hr] at h <;>
        try dsimp only at h
      · simp only [Prod.mk.injEq, Outcome.ok.injEq] at h
        rw [← h.1, mkSftpEntry_get_name, mkSftpEntry_get_abs]
        exact ⟨rfl, rfl⟩
      · rcases hst : statF p2 with ⟨r, t⟩
        rw [hst] at h
        cases r <;> try dsimp only at h
        · simp only [Prod.mk.injEq, Outcome.ok.injEq] at h
          rw [← h.1, mkSftpEntry_get_name, mkSftpEntry_get_abs]
          exact ⟨rfl, rfl⟩
        · simp only [Prod.mk.injEq, Outcome.ok.injEq] at h
          rw [← h.1, mkSftpEntry_get_name, mkSftpEntry_get_abs]
          exact ⟨rfl, rfl⟩
        · simp at h
        · simp at h
    · rw [if_neg hs] at h
      simp only [Prod.mk.injEq, Outcome.ok.injEq] at h
      rw [← h.1, mkSftpEntry_get_name, mkSftpEntry_get_abs]
      exact ⟨rfl, rfl⟩

/-- C8 counterexample: on the shell-copy backend, `stat "/w/x"` succeeds
with an entry whose `name` is the whole echoed path `/w/x` while the final
component of its `abs_path` is just `x`, violating the claimed data-model
invariant that the final component of `abs_path` equals `name`. -/
theorem C8_abs_name_invariant_cex :
    scp_stat c8Env c6St 0 "/w/x"
      = .ok (.file ⟨"/w/x", "/w/x", 0, 0, 0, 1, none, false, none, none,
          none, some (6, 4, 4)⟩) ∧
    fileName "/w/x" = some "x" :=
  ⟨rfl, rfl⟩

/-- C8 (amended): entries built by the native-SFTP constructor always have
`fileName abs_path = some name`; entries built by the shell-copy listing
parser satisfy it provided the parsed name token is nonempty and contains
no path separator (a name token echoing a path, as with `ls -l` on an
absolute path, breaks it). -/
theorem C8_abs_name_invariant :
    (∀ (env : ScpEnv) (fuel : Nat) (st : ScpState) (path line : String)
        (e : FsEntry) (ds dq : List String),
      parse_ls_output env fuel st path line = (.ok e, ds, dq) →
      containsSlash e.get_name = false → e.get_name ≠ "" →
      fileName e.get_abs_path = some e.get_name) ∧
    (∀ (env : SftpEnv) (fuel : Nat) (st : SftpState) (path : String)
        (m : FileStat) (e : FsEntry) (tr : List SPrim),
      make_fsentry env fuel st path m = (.ok e, tr) →
      fileName e.get_abs_path = some e.get_name) := by
  constructor
  · intro env fuel st path line e ds dq h hsl hne
    unfold parse_ls_output at h
    have hs := parse_core_ok_name env _ path line e ds dq h
    rw [hs.2]
    exact fileName_pushPath path e.get_name hne hsl
      (fun hh => hs.1 (Or.inl hh)) (fun hh => hs.1 (Or.inr hh))
  · intro env fuel st path m e tr h
    unfold make_fsentry at h
    have hs := make_core_ok_name env _ path m e tr h
    rw [hs.2]
    exact hs.1

/-- Witness for the amended C8 on concrete entries of both backends. -/
theorem C8_abs_name_invariant_witness :
    parse_ls_output baseScpEnv 1 scpConn "/p"
        "-rw-r--r-- 1 u u 42 Jan 1 12:00 hello.txt"
      = (.ok (.file ⟨"hello.txt", "/p/hello.txt", 0, 0, 0, 42, some "txt",
          false, none, none, none, some (6, 4, 4)⟩), [], []) ∧
    fileName "/p/hello.txt" = some "hello.txt" ∧
    make_fsentry baseSftpEnv 0 sftpConn "/d/a" fileMeta
      = (.ok (.file ⟨"a", "/d/a", 7, 5, 0, 3, none, false, none, some 0,
          some 0, some (6, 4, 4)⟩), []) ∧
    fileName "/d/a" = some "a" := by
  refine ⟨rfl, ?_, rfl, ?_⟩
  · exact C8_abs_name_invariant.1 baseScpEnv 1 scpConn "/p"
      "-rw-r--r-- 1 u u 42 Jan 1 12:00 hello.txt"
      (.file ⟨"hello.txt", "/p/hello.txt", 0, 0, 0, 42, some "txt", false,
        none, none, none, some (6, 4, 4)⟩) [] [] rfl rfl (by decide)
  · exact C8_abs_name_invariant.2 baseSftpEnv 0 sftpConn "/d/a" fileMeta
      (.file ⟨"a", "/d/a", 7, 5, 0, 3, none, false, none, some 0, some 0,
        some (6, 4, 4)⟩) [] rfl

/-- A symlink line whose target must be resolved propagates a spinning
recursive stat. -/
theorem parse_core_statF_spin (env : ScpEnv)
    (statF : String → Outcome FsEntry) (path line : String) (tok : LsTok)
    (fn tgt : String) (hm : lsMatch line.toList = some tok)
    (hf : tok.flag = 'l')
    (hg : get_name_and_link (String.mk tok.nameTok) = (fn, some tgt))
    (hne : ¬(fileName tgt).getD "" = fn) (hsp : statF tgt = .spin) :
    parse_core env statF path line = (.spin, [tgt], [tgt]) := by
  unfold parse_core
  rw [hm]
  dsimp only
  rw [if_pos (Or.inr (Or.inl hf))]
  rw [if_pos hf, hg]
  dsimp only
  rw [if_neg hne, hsp]

/-- A `stat` whose single listing line is a symlink to a different name
propagates a spinning recursive stat of the target. -/
theorem scp_stat_body_spin (env : ScpEnv) (st : ScpState)
    (statF : String → Outcome FsEntry) (path parent line : String)
    (tok : LsTok) (fn tgt : String)
    (hd : env.localIsDir path = false) (hs : st.session = true)
    (hc : performShellCmdWithPath env st st.wrkdir
        ("ls -l \""
          ++ (if startsSlash path then path else pushPath st.wrkdir path)
          ++ "\"") = .ok line)
    (hp : parentPath
        (if startsSlash path then path else pushPath st.wrkdir path)
      = some parent)
    (hm : lsMatch (trimS line).toList = some tok) (hf : tok.flag = 'l')
    (hg : get_name_and_link (String.mk tok.nameTok) = (fn, some tgt))
    (hne : ¬(fileName tgt).getD "" = fn) (hsp : statF tgt = .spin) :
    scp_stat_body env st statF path = .spin := by
  unfold scp_stat_body
  rw [if_neg (by rw [hd]; simp)]
  dsimp only
  rw [if_pos hs, hc]
  dsimp only
  rw [hp]
  dsimp only
  rw [parse_core_statF_spin env statF parent (trimS line) tok fn tgt hm hf
    hg hne hsp]

/-- On the two-step symlink cycle `a -> b -> a` of `c6Env`, `stat` of
either endpoint runs forever at every recursion budget. -/
theorem c6_stat_spin : ∀ fuel,
    scp_stat c6Env c6St fuel "a" = .spin
      ∧ scp_stat c6Env c6St fuel "b" = .spin := by
  intro fuel
  induction fuel with
  | zero => exact ⟨rfl, rfl⟩
  | succ n ih =>
    constructor
    · show scp_stat_body c6Env c6St
        (fun p => scp_stat c6Env c6St n p) "a" = .spin
      exact scp_stat_body_spin c6Env c6St _ "a" "/w"
        "lrwxrwxrwx 1 u u 1 Jan 1 12:00 /w/a -> b"
        ⟨'l', "rwxrwxrwx".toList, "1".toList, "u".toList, "u".toList,
          "1".toList, "Jan 1 12:00".toList, "/w/a -> b".toList⟩
        "/w/a" "b" rfl rfl rfl rfl rfl rfl rfl (by decide) ih.2
    · show scp_stat_body c6Env c6St
        (fun p => scp_stat c6Env c6St n p) "b" = .spin
      exact scp_stat_body_spin c6Env c6St _ "b" "/w"
        "lrwxrwxrwx 1 u u 1 Jan 1 12:00 /w/b -> a"
        ⟨'l', "rwxrwxrwx".toList, "1".toList, "u".toList, "u".toList,
          "1".toList, "Jan 1 12:00".toList, "/w/b -> a".toList⟩
        "/w/b" "a" rfl rfl rfl rfl rfl rfl rfl (by decide) ih.1

/-- The line loop of `list_dir` never produces a typed error: parse
failures drop the line, and only a spinning or panicking recursive stat
escapes. -/
theorem parseLines_no_err (env : ScpEnv) (fuel : Nat) (st : ScpState)
    (path : String) (lines : List String) (e : FTErr) :
    parseLines env fuel st path lines ≠ .err e := by
  induction lines with
  | nil => simp [parseLines]
  | cons l ls ih =>
    intro hcontra
    unfold parseLines at hcontra
    rcases hp : parse_ls_output env fuel st path l with ⟨r, ds, dq⟩
    rw [hp] at hcontra
    cases r with
    | ok e2 =>
      dsimp only at hcontra
      rcases hr : parseLines env fuel st path ls with es | er
      · rw [hr] at hcontra
        simp at hcontra
      · rw [hr] at hcontra
        dsimp only at hcontra
        injection hcontra with h3
        subst h3
        exact ih hr
      · rw [hr] at hcontra
        simp at hcontra
      · rw [hr] at hcontra
        simp at hcontra
    | fail =>
      dsimp only at hcontra
      exact ih hcontra
    | spin =>
      dsimp only at hcontra
      simp at hcontra
    | panic =>
      dsimp only at hcontra
      simp at hcontra

/-- C6 counterexample: on the `a -> b`, `b -> a` symlink cycle, the
`ls -la` output is captured successfully, yet `list_dir` does not return
Ok at any recursion budget — it runs forever resolving the cycle. -/
theorem C6_list_dir_no_error_cex :
    performShellCmdWithPath c6Env c6St "/w" "unset LANG; ls -la \"/w/d\""
      = .ok "lrwxrwxrwx 1 u u 1 Jan 1 12:00 a -> b" ∧
    ∀ fuel, scp_list_dir c6Env fuel c6St "/w/d" = .spin := by
  refine ⟨rfl, ?_⟩
  intro fuel
  show parseLines c6Env fuel c6St "/w/d"
    ["lrwxrwxrwx 1 u u 1 Jan 1 12:00 a -> b"] = .spin
  have hp : parse_ls_output c6Env fuel c6St "/w/d"
      "lrwxrwxrwx 1 u u 1 Jan 1 12:00 a -> b" = (.spin, ["b"], ["b"]) := by
    unfold parse_ls_output
    cases fuel with
    | zero =>
      exact parse_core_statF_spin c6Env _ "/w/d"
        "lrwxrwxrwx 1 u u 1 Jan 1 12:00 a -> b"
        ⟨'l', "rwxrwxrwx".toList, "1".toList, "u".toList, "u".toList,
          "1".toList, "Jan 1 12:00".toList, "a -> b".toList⟩
        "a" "b" rfl rfl rfl (by decide) rfl
    | succ n =>
      exact parse_core_statF_spin c6Env _ "/w/d"
        "lrwxrwxrwx 1 u u 1 Jan 1 12:00 a -> b"
        ⟨'l', "rwxrwxrwx".toList, "1".toList, "u".toList, "u".toList,
          "1".toList, "Jan 1 12:00".toList, "a -> b".toList⟩
        "a" "b" rfl rfl rfl (by decide) (c6_stat_spin n).2
  unfold parseLines
  rw [hp]

/-- C6 (amended): once the listing output is captured, `list_dir` never
returns a typed error — lines that fail the listing pattern are silently
dropped, as are non-symlink lines named `.` or `..` — but it does not
always return Ok either: a symlink cycle in the listing makes it run
forever (see the counterexample). -/
theorem C6_list_dir_no_error :
    (∀ (env : ScpEnv) (fuel : Nat) (st : ScpState) (path out : String)
        (e : FTErr), st.session = true →
      performShellCmdWithPath env st st.wrkdir
          ("unset LANG; ls -la \"" ++ path ++ "\"") = .ok out →
      scp_list_dir env fuel st path ≠ .err e) ∧
    (∀ (env : ScpEnv) (fuel : Nat) (st : ScpState) (path l : String)
        (ls : List String), lsMatch l.toList = none →
      parseLines env fuel st path (l :: ls)
        = parseLines env fuel st path ls) ∧
    (∀ (env : ScpEnv) (fuel : Nat) (st : ScpState) (path l : String)
        (ls : List String) (tok : LsTok), lsMatch l.toList = some tok →
      (tok.flag = '-' ∨ tok.flag = 'd') →
      (String.mk tok.nameTok = "." ∨ String.mk tok.nameTok = "..") →
      parseLines env fuel st path (l :: ls)
        = parseLines env fuel st path ls) := by
  refine ⟨?_, ?_, ?_⟩
  · intro env fuel st path out e hs hc
    unfold scp_list_dir
    rw [if_pos hs, hc]
    exact parseLines_no_err env fuel st path (linesOf out) e
  · intro env fuel st path l ls hm
    have hfail : parse_ls_output env fuel st path l = (.fail, [], []) := by
      unfold parse_ls_output parse_core
      rw [hm]
    conv_lhs => unfold parseLines
    rw [hfail]
  · intro env fuel st path l ls tok hm hfd hdot
    have hcond : tok.flag = '-' ∨ tok.flag = 'l' ∨ tok.flag = 'd' := by
      rcases hfd with h | h
      · exact Or.inl h
      · exact Or.inr (Or.inr h)
    have hlne : ¬tok.flag = 'l' := by
      rcases hfd with h | h <;> rw [h] <;> decide
    have hfail : parse_ls_output env fuel st path l = (.fail, [], []) := by
      unfold parse_ls_output parse_core
      rw [hm]
      dsimp only
      rw [if_pos hcond]
      rw [if_neg hlne]
      try dsimp only
      rw [if_pos hdot]
    conv_lhs => unfold parseLines
    rw [hfail]

/-- Witness for the amended C6 on a listing containing a well-formed file
line, an unparsable line, and the `.`/`..` entries: the garbage and dot
lines are dropped, no error is returned, and the overall listing is Ok
with the single real entry. -/
theorem C6_list_dir_no_error_witness :
    scp_list_dir c6EnvPlain 1 scpConn "/x" ≠ .err .ProtocolError ∧
    parseLines c6EnvPlain 1 scpConn "/x"
        ["total 2", "-rw-r--r-- 1 u u 42 Jan 1 12:00 hello.txt"]
      = parseLines c6EnvPlain 1 scpConn "/x"
        ["-rw-r--r-- 1 u u 42 Jan 1 12:00 hello.txt"] ∧
    parseLines c6EnvPlain 1 scpConn "/x"
        ["drwxr-xr-x 2 u u 6 Jan 1 12:00 .", "hello"]
      = parseLines c6EnvPlain 1 scpConn "/x" ["hello"] ∧
    scp_list_dir c6EnvPlain 1 scpConn "/x"
      = .ok [.file ⟨"hello.txt", "/x/hello.txt", 0, 0, 0, 42, some "txt",
          false, none, none, none, some (6, 4, 4)⟩] := by
  refine ⟨?_, ?_, ?_, rfl⟩
  · exact C6_list_dir_no_error.1 c6EnvPlain 1 scpConn "/x"
      ("total 2\ndrwxr-xr-x 2 u u 6 Jan 1 12:00 .\ndrwxr-xr-x 9 u u 6 Jan 1 12:00 ..\n-rw-r--r-- 1 u u 42 Jan 1 12:00 hello.txt\n")
      .ProtocolError rfl rfl
  · exact C6_list_dir_no_error.2.1 c6EnvPlain 1 scpConn "/x" "total 2"
      ["-rw-r--r-- 1 u u 42 Jan 1 12:00 hello.txt"] rfl
  · exact C6_list_dir_no_error.2.2 c6EnvPlain 1 scpConn "/x"
      "drwxr-xr-x 2 u u 6 Jan 1 12:00 ." ["hello"]
      ⟨'d', "rwxr-xr-x".toList, "2".toList, "u".toList, "u".toList,
        "6".toList, "Jan 1 12:00".toList, ".".toList⟩
      rfl (Or.inr rfl) (Or.inl rfl)

end Termscp
